import Mathlib

/-!
Shallow embedding of the CirclePhysics engine (naffnuff/CirclePhysics).

Floats are modelled as exact rationals.  The C runtime square root has no
exact rational counterpart, so every function that calls
Vector2::length takes an explicit square-root model sq : Q -> Q as a
parameter; theorems hypothesise only the values of sq they need, and
witnesses instantiate sq at inputs whose square root is rational.

Division in C++ floats silently produces inf or NaN on a zero divisor;
Engine::correctVelocities divides by the total inverse mass without a
guard, so its embedding returns Option, with none marking exactly the
executions that evaluate that division with a zero divisor.
-/

namespace CirclePhysics

/-- Truncation toward zero, the semantics of a C cast from a floating
value to int, on exact rationals. -/
def truncQ (x : ℚ) : ℤ :=
  if 0 ≤ x then ⌊x⌋ else ⌈x⌉

/-! ### Vector2 (src/Vector2.h) -/

structure Vector2 where
  x : ℚ
  y : ℚ
deriving DecidableEq, Repr

namespace Vector2

def neg (v : Vector2) : Vector2 := ⟨-v.x, -v.y⟩

def add (a b : Vector2) : Vector2 := ⟨a.x + b.x, a.y + b.y⟩

def sub (a b : Vector2) : Vector2 := ⟨a.x - b.x, a.y - b.y⟩

def smul (v : Vector2) (s : ℚ) : Vector2 := ⟨v.x * s, v.y * s⟩

def dot (a b : Vector2) : ℚ := a.x * b.x + a.y * b.y

def lengthSquared (v : Vector2) : ℚ := v.x * v.x + v.y * v.y

/-- Vector2::length is std::sqrt(lengthSquared()); the square root is
supplied as the model parameter sq. -/
def length (sq : ℚ → ℚ) (v : Vector2) : ℚ := sq v.lengthSquared

/-- Vector2::normalized: returns the zero vector when the length is
below the 0.0001 guard, otherwise scales by the inverse length. -/
def normalized (sq : ℚ → ℚ) (v : Vector2) : Vector2 :=
  let len := v.length sq
  if len < 1 / 10000 then ⟨0, 0⟩
  else
    let invLen := 1 / len
    ⟨v.x * invLen, v.y * invLen⟩

end Vector2

/-! ### Engine configuration (src/Engine.h) -/

structure Config where
  minRadius : ℚ
  maxRadius : ℚ
  spawnLimit : ℤ
  gravity : ℚ
  restitution : ℚ
  initialAspectRatio : ℚ
  initialWindowHeight : ℚ
  spawnRate : ℚ
  correctionIterations : ℤ
deriving DecidableEq, Repr

/-- A collision record: indices of the two circles, contact normal and
penetration depth (Engine.h struct Collision, index-based form used by
Engine.cpp). -/
structure Collision where
  firstIndex : ℕ
  secondIndex : ℕ
  normal : Vector2
  penetration : ℚ
deriving DecidableEq, Repr

/-- Modelled from the spec: the structure-of-arrays circle store
(class CircleData, whose defining file is not part of src/; Engine.cpp
and Renderer.cpp only use its columns, getCircleCount and addCircle).
Each attribute is a column of floats indexed by the slot id. -/
structure CircleData where
  positionsX : List ℚ
  positionsY : List ℚ
  previousPositionsX : List ℚ
  previousPositionsY : List ℚ
  velocitiesX : List ℚ
  velocitiesY : List ℚ
  inverseMasses : List ℚ
  radii : List ℚ
  r : List ℚ
  g : List ℚ
  b : List ℚ
  outlineWidths : List ℚ
deriving DecidableEq, Repr

namespace CircleData

/-- Modelled from the spec: the live slot count, the common length of
all columns. -/
def getCircleCount (s : CircleData) : ℕ := s.positionsX.length

/-- Modelled from the spec: append one circle to every column (slot ids
are stable, nothing is ever removed).  The previous position of a fresh
circle starts at its position. -/
def addCircle (s : CircleData) (position velocity : Vector2)
    (inverseMass radius red green blue outlineWidth : ℚ) : CircleData where
  positionsX := s.positionsX ++ [position.x]
  positionsY := s.positionsY ++ [position.y]
  previousPositionsX := s.previousPositionsX ++ [position.x]
  previousPositionsY := s.previousPositionsY ++ [position.y]
  velocitiesX := s.velocitiesX ++ [velocity.x]
  velocitiesY := s.velocitiesY ++ [velocity.y]
  inverseMasses := s.inverseMasses ++ [inverseMass]
  radii := s.radii ++ [radius]
  r := s.r ++ [red]
  g := s.g ++ [green]
  b := s.b ++ [blue]
  outlineWidths := s.outlineWidths ++ [outlineWidth]

end CircleData

/-! ### Wall resolution (Engine::resolveWallCollisions) -/

/-- The body of the wall loop for one circle: reads position, velocity
and radius, reflects and clamps against each wall.  Returns the new
(positionX, positionY, velocityX, velocityY). -/
def resolveWall1 (restitution worldBoundX worldBoundY : ℚ)
    (x y vx vy radius : ℚ) : ℚ × ℚ × ℚ × ℚ :=
  let xPair :=
    if x - radius < -worldBoundX then (-worldBoundX + radius, -vx * restitution)
    else if x + radius > worldBoundX then (worldBoundX - radius, -vx * restitution)
    else (x, vx)
  let yPair :=
    if y - radius < -worldBoundY then (-worldBoundY + radius, -vy * restitution)
    else if y + radius > worldBoundY then (worldBoundY - radius, -vy * restitution)
    else (y, vy)
  (xPair.1, yPair.1, xPair.2, yPair.2)

/-- Engine::resolveWallCollisions: applies resolveWall1 to every live
slot.  Each slot only reads its own pre-pass values, so the serial C++
loop is the per-index map below. -/
def resolveWallCollisions (restitution worldBoundX worldBoundY : ℚ)
    (s : CircleData) : CircleData :=
  let n := s.getCircleCount
  let out := fun i => resolveWall1 restitution worldBoundX worldBoundY
    (s.positionsX.getD i 0) (s.positionsY.getD i 0)
    (s.velocitiesX.getD i 0) (s.velocitiesY.getD i 0) (s.radii.getD i 0)
  { s with
    positionsX := (List.range n).map (fun i => (out i).1)
    positionsY := (List.range n).map (fun i => (out i).2.1)
    velocitiesX := (List.range n).map (fun i => (out i).2.2.1)
    velocitiesY := (List.range n).map (fun i => (out i).2.2.2) }

/-! ### Narrow phase (Engine::checkCollision) -/

/-- Engine::checkCollision: emit a record when the squared centre
distance is below the squared radius sum. -/
def checkCollision (sq : ℚ → ℚ) (i j : ℕ)
    (firstPosition secondPosition : Vector2)
    (firstRadius secondRadius : ℚ) : Option Collision :=
  let radii := firstRadius + secondRadius
  let radiiSquared := radii * radii
  let difference := secondPosition.sub firstPosition
  let distanceSquared := difference.lengthSquared
  if distanceSquared < radiiSquared then
    some ⟨i, j, difference.normalized sq, radii - difference.length sq⟩
  else
    none

/-! ### Solver (Engine::correctVelocities, Engine::correctPositions) -/

/-- Engine::correctVelocities.  The C++ divides by the total inverse
mass without a guard; a zero divisor is modelled as none. -/
def correctVelocities (restitution : ℚ) (collision : Collision)
    (s : CircleData) : Option CircleData :=
  let i := collision.firstIndex
  let j := collision.secondIndex
  let firstVelocity : Vector2 := ⟨s.velocitiesX.getD i 0, s.velocitiesY.getD i 0⟩
  let secondVelocity : Vector2 := ⟨s.velocitiesX.getD j 0, s.velocitiesY.getD j 0⟩
  let firstInverseMass := s.inverseMasses.getD i 0
  let secondInverseMass := s.inverseMasses.getD j 0
  let relativeVelocity := secondVelocity.sub firstVelocity
  let velocityAlongNormal := relativeVelocity.dot collision.normal
  if velocityAlongNormal > 0 then
    some s
  else
    let totalInverseMass := firstInverseMass + secondInverseMass
    if totalInverseMass = 0 then
      none
    else
      let impulseMagnitude := -(1 + restitution) * velocityAlongNormal / totalInverseMass
      let impulse := collision.normal.smul impulseMagnitude
      some { s with
        velocitiesX := ((s.velocitiesX.set i
            (s.velocitiesX.getD i 0 - impulse.x * firstInverseMass)).set j
            ((s.velocitiesX.set i (s.velocitiesX.getD i 0 - impulse.x * firstInverseMass)).getD j 0
              + impulse.x * secondInverseMass))
        velocitiesY := ((s.velocitiesY.set i
            (s.velocitiesY.getD i 0 - impulse.y * firstInverseMass)).set j
            ((s.velocitiesY.set i (s.velocitiesY.getD i 0 - impulse.y * firstInverseMass)).getD j 0
              + impulse.y * secondInverseMass)) }

/-- The wall-aware redistribution of Engine::correctPositions along one
axis: given the two current coordinates, the axis correction, the two
inverse masses and radii and the bound, return the updated pair of
coordinates. -/
def correctAxis (bound : ℚ) (pos1 pos2 corr inv1 inv2 rad1 rad2 : ℚ) : ℚ × ℚ :=
  let totalInverseMass := inv1 + inv2
  if corr > 0 then
    let firstPos := pos1 - corr * inv1
    let secondPos := pos2 + corr * inv2
    if firstPos - rad1 < -bound then
      (pos1, pos2 + corr * totalInverseMass)
    else if secondPos + rad2 > bound then
      (pos1 - corr * totalInverseMass, pos2)
    else
      (firstPos, secondPos)
  else if corr < 0 then
    let firstPos := pos1 - corr * inv1
    let secondPos := pos2 + corr * inv2
    if firstPos + rad1 > bound then
      (pos1, pos2 + corr * totalInverseMass)
    else if secondPos - rad2 < -bound then
      (pos1 - corr * totalInverseMass, pos2)
    else
      (firstPos, secondPos)
  else
    (pos1, pos2)

/-- Engine::correctPositions: guarded against a zero total inverse
mass, then wall-aware redistribution on the X axis followed by the Y
axis. -/
def correctPositions (worldBoundX worldBoundY : ℚ) (collision : Collision)
    (s : CircleData) : CircleData :=
  let i := collision.firstIndex
  let j := collision.secondIndex
  let firstInverseMass := s.inverseMasses.getD i 0
  let secondInverseMass := s.inverseMasses.getD j 0
  let firstRadius := s.radii.getD i 0
  let secondRadius := s.radii.getD j 0
  let totalInverseMass := firstInverseMass + secondInverseMass
  if totalInverseMass ≤ 0 then
    s
  else
    let correction := collision.normal.smul (collision.penetration / totalInverseMass)
    let xPair := correctAxis worldBoundX
      (s.positionsX.getD i 0) (s.positionsX.getD j 0) correction.x
      firstInverseMass secondInverseMass firstRadius secondRadius
    let s1 := { s with positionsX := (s.positionsX.set i xPair.1).set j xPair.2 }
    let yPair := correctAxis worldBoundY
      (s1.positionsY.getD i 0) (s1.positionsY.getD j 0) correction.y
      firstInverseMass secondInverseMass firstRadius secondRadius
    { s1 with positionsY := (s1.positionsY.set i yPair.1).set j yPair.2 }

/-! ### Spatial grid (src/SpatialGrid.h)

The grid is a row-major list of cells; the cell (x, y) lives at flat
index y * cellCountX + x.  Cell counts are the C++ ints
(int)(2 * bound / cellSize) + 1, nonnegative whenever the bounds are,
so they are carried as naturals. -/

/-- All intra-cell pairs, second element appearing later in the cell
list (the i < j double loop of getPotentialCollisions). -/
def intraPairs : List ℕ → List (ℕ × ℕ)
  | [] => []
  | a :: rest => rest.map (fun b => (a, b)) ++ intraPairs rest

/-- The cartesian product cell x neighbour, in the loop order of
getPotentialCollisions. -/
def crossPairs (cell neighbour : List ℕ) : List (ℕ × ℕ) :=
  cell.flatMap (fun first => neighbour.map (fun second => (first, second)))

/-- Read the cell (x, y) of the row-major grid. -/
def cellAt (grid : List (List ℕ)) (cellCountX x y : ℕ) : List ℕ :=
  grid.getD (y * cellCountX + x) []

/-- The pairs contributed by one cell of getPotentialCollisions:
intra-cell pairs, then the right, bottom, bottom-right and bottom-left
neighbour products, each guarded by the grid bounds. -/
def cellPairs (grid : List (List ℕ)) (cellCountX cellCountY x y : ℕ) :
    List (ℕ × ℕ) :=
  intraPairs (cellAt grid cellCountX x y)
  ++ (if x + 1 < cellCountX then
        crossPairs (cellAt grid cellCountX x y) (cellAt grid cellCountX (x + 1) y)
      else [])
  ++ (if y + 1 < cellCountY then
        crossPairs (cellAt grid cellCountX x y) (cellAt grid cellCountX x (y + 1))
      else [])
  ++ (if x + 1 < cellCountX ∧ y + 1 < cellCountY then
        crossPairs (cellAt grid cellCountX x y) (cellAt grid cellCountX (x + 1) (y + 1))
      else [])
  ++ (if 0 < x ∧ y + 1 < cellCountY then
        crossPairs (cellAt grid cellCountX x y) (cellAt grid cellCountX (x - 1) (y + 1))
      else [])

/-- SpatialGrid::getPotentialCollisions: row-major traversal emitting
each cell's pairs. -/
def getPotentialCollisions (grid : List (List ℕ)) (cellCountX cellCountY : ℕ) :
    List (ℕ × ℕ) :=
  (List.range cellCountY).flatMap (fun y =>
    (List.range cellCountX).flatMap (fun x =>
      cellPairs grid cellCountX cellCountY x y))

/-- Number of occurrences of a value in a cell list. -/
def vcount (a : ℕ) (l : List ℕ) : ℕ :=
  l.countP (fun x => decide (x = a))

/-- Number of occurrences of the unordered pair (a, b) in a candidate
pair list, in either orientation. -/
def upcount (a b : ℕ) (l : List (ℕ × ℕ)) : ℕ :=
  l.countP (fun p => decide ((p.1 = a ∧ p.2 = b) ∨ (p.1 = b ∧ p.2 = a)))

/-- The index a was inserted into exactly the cell (xa, ya) of the
grid, once: it occurs once there and in no other in-range cell.  This
is the grid content left by SpatialGrid::insert when each live index
is inserted exactly once. -/
def locatedAt (grid : List (List ℕ)) (cellCountX cellCountY : ℕ)
    (a xa ya : ℕ) : Prop :=
  xa < cellCountX ∧ ya < cellCountY ∧
  ∀ x, x < cellCountX → ∀ y, y < cellCountY →
    vcount a (cellAt grid cellCountX x y) = if x = xa ∧ y = ya then 1 else 0

/-- SpatialGrid::worldToCell composed with the isValidCell bounds check
of SpatialGrid::insert: the cell of a position, or none when it falls
outside the grid (the insertion is then silently skipped). -/
def worldToCell (worldBoundX worldBoundY cellSize : ℚ)
    (cellCountX cellCountY : ℕ) (position : Vector2) : Option (ℕ × ℕ) :=
  let gridX := position.x + worldBoundX
  let gridY := position.y + worldBoundY
  let cellX := truncQ (gridX / cellSize)
  let cellY := truncQ (gridY / cellSize)
  if 0 ≤ cellX ∧ cellX < (cellCountX : ℤ) ∧ 0 ≤ cellY ∧ cellY < (cellCountY : ℤ) then
    some (cellX.toNat, cellY.toNat)
  else
    none

/-- SpatialGrid::insert (the radius argument of the C++ signature is
unused by its body). -/
def gridInsert (worldBoundX worldBoundY cellSize : ℚ)
    (cellCountX cellCountY : ℕ) (grid : List (List ℕ))
    (value : ℕ) (position : Vector2) : List (List ℕ) :=
  match worldToCell worldBoundX worldBoundY cellSize cellCountX cellCountY position with
  | none => grid
  | some (cellX, cellY) =>
      let idx := cellY * cellCountX + cellX
      grid.set idx ((grid.getD idx []) ++ [value])

/-- SpatialGrid constructor clamp: m_cellSize = max(cellSizeHint, 0.01),
with cellSizeHint = maxRadius * 2 in the Engine constructor. -/
def cellSizeOf (config : Config) : ℚ :=
  max (config.maxRadius * 2) (1 / 100)

/-- SpatialGrid::updateDimensions: (int)(2 * bound / cellSize) + 1. -/
def cellCountOf (bound cellSize : ℚ) : ℕ :=
  (truncQ (2 * bound / cellSize) + 1).toNat

/-- Engine::detectCollisions, spatial-partitioning path: clear the
grid, insert every live circle, enumerate the candidate pairs. -/
def buildGrid (config : Config) (worldBoundX worldBoundY : ℚ)
    (s : CircleData) : List (List ℕ) :=
  let cellSize := cellSizeOf config
  let cellCountX := cellCountOf worldBoundX cellSize
  let cellCountY := cellCountOf worldBoundY cellSize
  (List.range s.getCircleCount).foldl
    (fun grid i =>
      gridInsert worldBoundX worldBoundY cellSize cellCountX cellCountY grid i
        ⟨s.positionsX.getD i 0, s.positionsY.getD i 0⟩)
    (List.replicate (cellCountX * cellCountY) [])

/-- Engine::detectCollisions, brute-force path: all ordered pairs
(i, j) with i < j < count. -/
def allPairs (n : ℕ) : List (ℕ × ℕ) :=
  (List.range n).flatMap (fun i =>
    ((List.range n).drop (i + 1)).map (fun j => (i, j)))

/-- The candidate pair list of one Engine::detectCollisions call. -/
def potentialCollisionPairs (useSpatialPartitioning : Bool) (config : Config)
    (worldBoundX worldBoundY : ℚ) (s : CircleData) : List (ℕ × ℕ) :=
  if useSpatialPartitioning then
    let cellSize := cellSizeOf config
    getPotentialCollisions (buildGrid config worldBoundX worldBoundY s)
      (cellCountOf worldBoundX cellSize) (cellCountOf worldBoundY cellSize)
  else
    allPairs s.getCircleCount

/-- Engine::detectCollisions: narrow-phase check of every candidate
pair (the threaded and serial paths produce the records in the same
order for a fixed partition). -/
def detectCollisions (useSpatialPartitioning : Bool) (sq : ℚ → ℚ)
    (config : Config) (worldBoundX worldBoundY : ℚ) (s : CircleData) :
    List Collision :=
  (potentialCollisionPairs useSpatialPartitioning config worldBoundX worldBoundY s).filterMap
    (fun p => checkCollision sq p.1 p.2
      ⟨s.positionsX.getD p.1 0, s.positionsY.getD p.1 0⟩
      ⟨s.positionsX.getD p.2 0, s.positionsY.getD p.2 0⟩
      (s.radii.getD p.1 0) (s.radii.getD p.2 0))

/-! ### Collision resolution (Engine::resolveCollisions) -/

/-- One position-correction sweep over the current record list. -/
def applyPositionCorrections (worldBoundX worldBoundY : ℚ)
    (collisions : List Collision) (s : CircleData) : CircleData :=
  collisions.foldl (fun acc c => correctPositions worldBoundX worldBoundY c acc) s

/-- The iteration loop of Engine::resolveCollisions: the first
iteration corrects along the records found by the main detection pass;
every later iteration re-runs detection first. -/
def positionIterations (useSpatialPartitioning : Bool) (sq : ℚ → ℚ)
    (config : Config) (worldBoundX worldBoundY : ℚ) :
    ℕ → List Collision → CircleData → CircleData
  | 0, _, s => s
  | k + 1, collisions, s =>
      let s1 := applyPositionCorrections worldBoundX worldBoundY collisions s
      if k = 0 then s1
      else positionIterations useSpatialPartitioning sq config worldBoundX worldBoundY
        k (detectCollisions useSpatialPartitioning sq config worldBoundX worldBoundY s1) s1

/-- Engine::resolveCollisions: one velocity pass over all records, then
correctionIterations position sweeps (none when the configured count is
not positive). -/
def resolveCollisions (useSpatialPartitioning : Bool) (sq : ℚ → ℚ)
    (config : Config) (worldBoundX worldBoundY : ℚ)
    (collisions : List Collision) (s : CircleData) : Option CircleData :=
  (collisions.foldlM (fun acc c => correctVelocities config.restitution c acc) s).map
    (positionIterations useSpatialPartitioning sq config worldBoundX worldBoundY
      config.correctionIterations.toNat collisions)

/-! ### Spawning (Engine::spawnCircles) -/

/-- One batch of pseudo-random draws consumed by a spawn: radius,
position, velocity and color components. -/
structure SpawnDraw where
  radius : ℚ
  posX : ℚ
  posY : ℚ
  velX : ℚ
  velY : ℚ
  colR : ℚ
  colG : ℚ
  colB : ℚ
deriving DecidableEq, Repr

/-- Append one spawned circle built from a draw, with the derived mass
and outline width of Engine::spawnCircles. -/
def spawnOne (config : Config) (s : CircleData) (d : SpawnDraw) : CircleData :=
  let density : ℚ := 1
  let mass := d.radius * d.radius * density
  let inverseMass := if mass = 0 then 0 else 1 / mass
  s.addCircle ⟨d.posX, d.posY⟩ ⟨d.velX, d.velY⟩ inverseMass d.radius
    d.colR d.colG d.colB (2 / d.radius / config.initialWindowHeight)

/-- The spawn target of Engine::spawnCircles: spawnLimit when the rate
is not positive, otherwise min((int)(spawnRate * simulationTime),
spawnLimit). -/
def expectedSpawnCount (config : Config) (simulationTime : ℚ) : ℤ :=
  if config.spawnRate > 0 then
    min (truncQ (config.spawnRate * simulationTime)) config.spawnLimit
  else
    config.spawnLimit

/-- The while loop of Engine::spawnCircles, unrolled over the number of
missing circles; the draw stream supplies the random values in order. -/
def spawnLoop (config : Config) (stream : ℕ → SpawnDraw) :
    ℕ → ℕ → CircleData → CircleData
  | 0, _, s => s
  | k + 1, used, s => spawnLoop config stream k (used + 1) (spawnOne config s (stream used))

/-- Engine::spawnCircles. -/
def spawnCircles (config : Config) (stream : ℕ → SpawnDraw)
    (simulationTime : ℚ) (s : CircleData) : CircleData :=
  let expected := expectedSpawnCount config simulationTime
  spawnLoop config stream (expected - (s.getCircleCount : ℤ)).toNat 0 s

/-! ### The tick (Engine::step) -/

/-- The snapshot loop of Engine::step: previous positions take the
current positions before any mutation. -/
def snapshotPreviousPositions (s : CircleData) : CircleData :=
  let n := s.getCircleCount
  { s with
    previousPositionsX := (List.range n).map (fun i => s.positionsX.getD i 0)
    previousPositionsY := (List.range n).map (fun i => s.positionsY.getD i 0) }

/-- The gravity-and-integration loop of Engine::step: semi-implicit
Euler, gravity skipped for infinite-mass circles, positions updated
with the fresh velocity. -/
def integrate (config : Config) (deltaTime : ℚ) (s : CircleData) : CircleData :=
  let n := s.getCircleCount
  let newVelY := fun i =>
    if s.inverseMasses.getD i 0 > 0 then
      s.velocitiesY.getD i 0 - config.gravity * deltaTime
    else
      s.velocitiesY.getD i 0
  { s with
    velocitiesY := (List.range n).map newVelY
    positionsX := (List.range n).map (fun i =>
      s.positionsX.getD i 0 + s.velocitiesX.getD i 0 * deltaTime)
    positionsY := (List.range n).map (fun i =>
      s.positionsY.getD i 0 + newVelY i * deltaTime) }

/-- Engine::step: spawn, snapshot, integrate, resolve walls, detect,
resolve collisions.  none marks a run that evaluated the unguarded
velocity-impulse division with a zero divisor. -/
def step (useSpatialPartitioning : Bool) (sq : ℚ → ℚ) (config : Config)
    (worldBoundX worldBoundY : ℚ) (stream : ℕ → SpawnDraw)
    (simulationTime deltaTime : ℚ) (s : CircleData) : Option CircleData :=
  let s0 := spawnCircles config stream simulationTime s
  let s1 := snapshotPreviousPositions s0
  let s2 := integrate config deltaTime s1
  let s3 := resolveWallCollisions config.restitution worldBoundX worldBoundY s2
  let collisions := detectCollisions useSpatialPartitioning sq config worldBoundX worldBoundY s3
  resolveCollisions useSpatialPartitioning sq config worldBoundX worldBoundY collisions s3

/-! ### Step controller (Renderer::run fixed-timestep loop) -/

/-- The controller state across the while loop of Renderer::run. -/
structure CtrlState where
  accumulator : ℚ
  actualPhysicsFrequency : ℚ
  fixedTimeStep : ℚ
deriving DecidableEq, Repr

/-- One iteration body of the fixed-timestep loop: the measured step
time drives the adaptive frequency when scalePhysics is on, and the
accumulator is decremented by the timestep in force after the
adjustment. -/
def ctrlIter (scalePhysics : Bool) (configFrequency : ℚ) (stepTime : ℚ)
    (s : CtrlState) : CtrlState :=
  let s1 :=
    if scalePhysics then
      if s.actualPhysicsFrequency > 10 ∧ stepTime > s.fixedTimeStep then
        let f := s.actualPhysicsFrequency - 1
        { s with actualPhysicsFrequency := f, fixedTimeStep := 1 / f }
      else if s.actualPhysicsFrequency < configFrequency ∧ stepTime < s.fixedTimeStep / 2 then
        let f := s.actualPhysicsFrequency + 1
        { s with actualPhysicsFrequency := f, fixedTimeStep := 1 / f }
      else s
    else s
  { s1 with accumulator := s1.accumulator - s1.fixedTimeStep }

/-- The while loop of Renderer::run, driven by the list of measured
step times; it stops when the accumulator drops below the timestep (or
when the supplied measurements run out). -/
def ctrlRun (scalePhysics : Bool) (configFrequency : ℚ) :
    List ℚ → CtrlState → CtrlState
  | [], s => s
  | t :: ts, s =>
      if s.accumulator ≥ s.fixedTimeStep then
        ctrlRun scalePhysics configFrequency ts (ctrlIter scalePhysics configFrequency t s)
      else s

/-- The interpolation factor exposed to the renderer after the loop. -/
def interpolationFactor (s : CtrlState) : ℚ :=
  s.accumulator / s.fixedTimeStep

/-- Whether one loop iteration takes the adaptive frequency-decrease
branch: scaling is on, the frequency is above 10 Hz and the measured
step time exceeded the timestep. -/
def decreaseFired (scalePhysics : Bool) (stepTime : ℚ) (s : CtrlState) : Bool :=
  scalePhysics && decide (s.actualPhysicsFrequency > 10 ∧ stepTime > s.fixedTimeStep)

/-- How many adaptive frequency decreases fire during one run of the
fixed-timestep loop. -/
def countDecreases (scalePhysics : Bool) (configFrequency : ℚ) :
    List ℚ → CtrlState → ℕ
  | [], _ => 0
  | t :: ts, s =>
      if s.accumulator ≥ s.fixedTimeStep then
        (if decreaseFired scalePhysics t s then 1 else 0)
        + countDecreases scalePhysics configFrequency ts
            (ctrlIter scalePhysics configFrequency t s)
      else 0

/-! ### Concrete sample inputs for witnesses and counterexamples -/

/-- A square-root model used only at 0, where it agrees with the real
square root. -/
def sqZero : ℚ → ℚ := fun _ => 0

/-- A square-root model for the C1 failing input; the only value the
run evaluates is sq (1/25), and sqrt (1/25) = 1/5 exactly. -/
def sqC1 : ℚ → ℚ := fun q => if q = 1 / 25 then 1 / 5 else 0

/-- A square-root model for the C9 witness; the only value the run
evaluates is sq (1/400000000), and its real square root is 1/20000. -/
def sqC9 : ℚ → ℚ := fun q => if q = 1 / 400000000 then 1 / 20000 else 0

/-- The store of the C1 failing input: two overlapping disks of radius
9/10 inside the container of half-extents 1; disk 0 is immovable. -/
def c1State : CircleData :=
  ⟨[-1/10, 1/10], [0, 0], [0, 0], [0, 0], [0, 0], [0, 0],
   [0, 1], [9/10, 9/10], [1, 1], [1, 1], [1, 1], [0, 0]⟩

/-- The record the narrow phase emits for the two disks of c1State. -/
def c1Collision : Collision := ⟨0, 1, ⟨1, 0⟩, 8/5⟩

/-- The store of the C2 failing input: two disks of infinite mass whose
relative velocity along the contact normal is negative. -/
def c2State : CircleData :=
  ⟨[-1/10, 1/10], [0, 0], [0, 0], [0, 0], [1, 0], [0, 0],
   [0, 0], [1, 1], [1, 1], [1, 1], [1, 1], [0, 0]⟩

/-- A collision record pairing the two infinite-mass disks of c2State. -/
def c2Collision : Collision := ⟨0, 1, ⟨1, 0⟩, 1/2⟩

/-- A single-circle store inside the container of half-extents 2, used
by the C10 witness. -/
def wallSample : CircleData :=
  ⟨[5], [-7], [0], [0], [1], [2], [1], [1], [1], [1], [1], [0]⟩

/-- A fixed stream of spawn draws for spawning witnesses. -/
def sampleStream : ℕ → SpawnDraw := fun _ => ⟨1/2, 0, 0, 0, 0, 1/2, 1/2, 1/2⟩

/-- The store with no live circles. -/
def emptyStore : CircleData :=
  ⟨[], [], [], [], [], [], [], [], [], [], [], []⟩

/-- A configuration with spawn rate 0 and spawn limit 3. -/
def sampleConfig : Config := ⟨1/10, 1/2, 3, 0, 1/2, 1, 100, 0, 4⟩

/-- A configuration with a negative spawn rate, reachable from the
command line, on which the spec's spawn-target formula and the code
disagree. -/
def negRateConfig : Config := ⟨1/10, 1/2, 2, 0, 1/2, 1, 100, -1, 4⟩

/-- The spawn target exactly as the C5 claim words it: spawnLimit when
spawnRate = 0, otherwise min(floor(spawnRate * simulationTime),
spawnLimit).  Stated for comparison against the code's target. -/
def claimTargetC5 (config : Config) (simulationTime : ℚ) : ℤ :=
  if config.spawnRate = 0 then config.spawnLimit
  else min ⌊config.spawnRate * simulationTime⌋ config.spawnLimit

/-- The net effect of one Engine::step on a store holding exactly one
circle that nothing is spawned next to: snapshot, semi-implicit Euler,
wall resolution; the solver finds no pairs.  Derived from step in the
step_single lemma below. -/
def singleTick (config : Config) (worldBoundX worldBoundY deltaTime : ℚ)
    (s : CircleData) (x0 y0 vx0 vy0 rad im : ℚ) : CircleData :=
  let vy1 := if 0 < im then vy0 - config.gravity * deltaTime else vy0
  let w := resolveWall1 config.restitution worldBoundX worldBoundY
    (x0 + vx0 * deltaTime) (y0 + vy1 * deltaTime) vx0 vy1 rad
  { s with
    positionsX := [w.1]
    positionsY := [w.2.1]
    previousPositionsX := [x0]
    previousPositionsY := [y0]
    velocitiesX := [w.2.2.1]
    velocitiesY := [w.2.2.2] }

/-- A single-circle store for the amended C6 boundary scenario, at the
right wall of the container of half-extents 1, radius 1/2, moving
right at speed 1. -/
def c6State : CircleData :=
  ⟨[1 - 1/2], [0], [0], [0], [1], [0], [4], [1/2], [1], [1], [1], [0]⟩

/-- A gravity-free configuration with spawn limit 1 for the C6
witness. -/
def c6Config : Config := ⟨1/10, 1/2, 1, 0, 1/2, 1, 100, 0, 1⟩

/-- A configuration identical to c6Config except for gravity 1, for
the C6 counterexample. -/
def c6GravityConfig : Config := ⟨1/10, 1/2, 1, 1, 1/2, 1, 100, 0, 1⟩

/-- A single-circle store at the right wall of the container of
half-extents 2, for the C6 counterexample under gravity. -/
def c6GravityState : CircleData :=
  ⟨[2 - 1/2], [0], [0], [0], [1], [0], [4], [1/2], [1], [1], [1], [0]⟩

/-- A configuration with spawn limit 1 and one correction iteration,
for the C8 counterexample. -/
def c8Config : Config := ⟨1/10, 1/2, 1, 0, 1/2, 1, 100, 0, 1⟩

/-- The store obtained by spawning the first sampleStream draw into the
empty store under c8Config: inverse mass 1/(1/2)^2 = 4 and outline
width 2/(1/2)/100 = 1/25. -/
def c8Spawned : CircleData :=
  ⟨[0], [0], [0], [0], [0], [0], [4], [1/2], [1/2], [1/2], [1/2], [1/25]⟩

/-! ## Helper lemmas -/

theorem getD_map_range {α : Type} (f : ℕ → α) (d : α) {i n : ℕ} (h : i < n) :
    ((List.range n).map f).getD i d = f i := by
  simp [List.getD_eq_getElem?_getD, List.getElem?_map, List.getElem?_range, h]

theorem set_getD_self {α : Type} (l : List α) (i : ℕ) (d : α) :
    l.set i (l.getD i d) = l := by
  induction l generalizing i with
  | nil => simp
  | cons h t ih =>
    cases i with
    | zero => simp [List.getD_eq_getElem?_getD]
    | succ n =>
      simp only [List.getD_eq_getElem?_getD, List.getElem?_cons_succ, List.set_cons_succ,
        List.cons.injEq, true_and] at ih ⊢
      exact ih n

theorem set_getElem?_getD_self {α : Type} (l : List α) (i : ℕ) (d : α) :
    l.set i (l[i]?.getD d) = l := by
  have := set_getD_self l i d
  simpa [List.getD_eq_getElem?_getD] using this

theorem resolveWall1_containment (restitution worldBoundX worldBoundY x y vx vy radius : ℚ)
    (hrx : radius ≤ worldBoundX) (hry : radius ≤ worldBoundY) :
    (-worldBoundX + radius ≤ (resolveWall1 restitution worldBoundX worldBoundY x y vx vy radius).1
      ∧ (resolveWall1 restitution worldBoundX worldBoundY x y vx vy radius).1 ≤ worldBoundX - radius)
    ∧ (-worldBoundY + radius ≤ (resolveWall1 restitution worldBoundX worldBoundY x y vx vy radius).2.1
      ∧ (resolveWall1 restitution worldBoundX worldBoundY x y vx vy radius).2.1 ≤ worldBoundY - radius) := by
  unfold resolveWall1
  dsimp only
  split_ifs <;> dsimp only <;> refine ⟨⟨by linarith, by linarith⟩, ⟨by linarith, by linarith⟩⟩

/-! ## Claims -/

/-- C10: immediately after resolveWallCollisions returns, every disk i
whose radius satisfies r[i] ≤ Bx and r[i] ≤ By lies inside the
container: -Bx + r[i] ≤ x[i] ≤ Bx - r[i] and -By + r[i] ≤ y[i] ≤
By - r[i], regardless of the disk's position and velocity before the
pass, in exact arithmetic. -/
theorem resolveWallCollisions_containment (restitution worldBoundX worldBoundY : ℚ)
    (s : CircleData) (i : ℕ) (hi : i < s.getCircleCount)
    (hrx : s.radii.getD i 0 ≤ worldBoundX) (hry : s.radii.getD i 0 ≤ worldBoundY) :
    (-worldBoundX + s.radii.getD i 0
        ≤ (resolveWallCollisions restitution worldBoundX worldBoundY s).positionsX.getD i 0
      ∧ (resolveWallCollisions restitution worldBoundX worldBoundY s).positionsX.getD i 0
        ≤ worldBoundX - s.radii.getD i 0)
    ∧ (-worldBoundY + s.radii.getD i 0
        ≤ (resolveWallCollisions restitution worldBoundX worldBoundY s).positionsY.getD i 0
      ∧ (resolveWallCollisions restitution worldBoundX worldBoundY s).positionsY.getD i 0
        ≤ worldBoundY - s.radii.getD i 0) := by
  unfold resolveWallCollisions
  dsimp only
  rw [getD_map_range _ _ hi, getD_map_range _ _ hi]
  exact resolveWall1_containment restitution worldBoundX worldBoundY
    (s.positionsX.getD i 0) (s.positionsY.getD i 0)
    (s.velocitiesX.getD i 0) (s.velocitiesY.getD i 0) (s.radii.getD i 0) hrx hry

/-- Witness for C10 at a concrete input. -/
theorem resolveWallCollisions_containment_witness :
    (-2 + wallSample.radii.getD 0 0
        ≤ (resolveWallCollisions (1/2) 2 2 wallSample).positionsX.getD 0 0
      ∧ (resolveWallCollisions (1/2) 2 2 wallSample).positionsX.getD 0 0
        ≤ 2 - wallSample.radii.getD 0 0)
    ∧ (-2 + wallSample.radii.getD 0 0
        ≤ (resolveWallCollisions (1/2) 2 2 wallSample).positionsY.getD 0 0
      ∧ (resolveWallCollisions (1/2) 2 2 wallSample).positionsY.getD 0 0
        ≤ 2 - wallSample.radii.getD 0 0) :=
  resolveWallCollisions_containment (1/2) 2 2 wallSample 0
    (by norm_num [wallSample, CircleData.getCircleCount])
    (by norm_num [wallSample]) (by norm_num [wallSample])

/-- C1 (code bug): the positional-correction pass can move a disk out
of the container.  At this input both disks start inside the container
of half-extents 1, the record is exactly the one the narrow phase
emits, and correctPositions moves disk 0 - an immovable disk of
inverse mass 0 - to x = -17/10, whose left edge -13/5 is outside the
left wall.  This contradicts the claimed walls-win invariant and the
source comments saying world boundaries are respected above all else
and that an infinite-mass object cannot be moved. -/
theorem correctPositions_moves_disk_out :
    checkCollision sqC1 0 1 ⟨-1/10, 0⟩ ⟨1/10, 0⟩ (9/10) (9/10) = some c1Collision
    ∧ (-1 + 9/10 ≤ c1State.positionsX.getD 0 0 ∧ c1State.positionsX.getD 0 0 ≤ 1 - 9/10)
    ∧ (-1 + 9/10 ≤ c1State.positionsX.getD 1 0 ∧ c1State.positionsX.getD 1 0 ≤ 1 - 9/10)
    ∧ c1State.inverseMasses.getD 0 0 = 0
    ∧ (correctPositions 1 1 c1Collision c1State).positionsX.getD 0 0 = -17/10
    ∧ (correctPositions 1 1 c1Collision c1State).positionsX.getD 0 0
        - c1State.radii.getD 0 0 < -1 := by
  refine ⟨?_, ?_, ?_, ?_, ?_, ?_⟩ <;>
    norm_num [checkCollision, sqC1, c1Collision, c1State, Vector2.sub, Vector2.lengthSquared,
      Vector2.normalized, Vector2.length, Vector2.smul, correctPositions, correctAxis,
      CircleData.getCircleCount, List.getD_cons_zero, List.getD_cons_succ]

/-- C2 (code bug): for a record whose two disks both have inverse mass
zero, correctVelocities reaches the impulse computation whenever the
relative normal velocity is not positive and divides by the zero total
inverse mass (modelled as none), while correctPositions is guarded and
leaves the store unchanged. -/
theorem correctVelocities_unguarded_zero_division :
    c2State.inverseMasses.getD 0 0 = 0
    ∧ c2State.inverseMasses.getD 1 0 = 0
    ∧ correctVelocities (4/5) c2Collision c2State = none
    ∧ correctPositions 1 1 c2Collision c2State = c2State := by
  refine ⟨?_, ?_, ?_, ?_⟩ <;>
    norm_num [correctVelocities, correctPositions, correctAxis, c2Collision, c2State,
      Vector2.sub, Vector2.dot, Vector2.smul, List.getD_cons_zero, List.getD_cons_succ]

/-- Counterexample to C3 as stated: at exactly coincident centres the
emitted record carries the zero normal, not the unit normal (1, 0);
Vector2::normalized returns the zero vector below its length guard. -/
theorem checkCollision_coincident_not_unitX :
    (checkCollision sqZero 0 1 ⟨0, 0⟩ ⟨0, 0⟩ 1 1).map Collision.normal = some ⟨0, 0⟩
    ∧ (⟨0, 0⟩ : Vector2) ≠ ⟨1, 0⟩ := by
  constructor
  · norm_num [checkCollision, sqZero, Vector2.sub, Vector2.lengthSquared,
      Vector2.normalized, Vector2.length]
  · norm_num [Vector2.mk.injEq]

/-- C3 as amended: for every candidate pair whose centre positions are
exactly equal (overlapping, since the radius sum is positive), the
emitted collision record carries the zero normal (0, 0) and penetration
equal to the radius sum. -/
theorem checkCollision_coincident_zero_normal (sq : ℚ → ℚ) (hsq : sq 0 = 0)
    (i j : ℕ) (p : Vector2) (firstRadius secondRadius : ℚ)
    (hr : 0 < firstRadius + secondRadius) :
    checkCollision sq i j p p firstRadius secondRadius
      = some ⟨i, j, ⟨0, 0⟩, firstRadius + secondRadius⟩ := by
  have hdiff : p.sub p = ⟨0, 0⟩ := by simp [Vector2.sub]
  unfold checkCollision
  rw [hdiff]
  have hls : Vector2.lengthSquared ⟨0, 0⟩ = 0 := by simp [Vector2.lengthSquared]
  have hlen : Vector2.length sq ⟨0, 0⟩ = 0 := by
    simp [Vector2.length, hls, hsq]
  rw [if_pos (by rw [hls]; positivity)]
  simp [Vector2.normalized, hlen]

/-- Witness for C3 as amended at a concrete input. -/
theorem checkCollision_coincident_zero_normal_witness :
    checkCollision sqZero 2 3 ⟨1/2, -1/3⟩ ⟨1/2, -1/3⟩ 1 2 = some ⟨2, 3, ⟨0, 0⟩, 1 + 2⟩ :=
  checkCollision_coincident_zero_normal sqZero rfl 2 3 ⟨1/2, -1/3⟩ 1 2 (by norm_num)

/-- C9: for every candidate pair whose computed centre distance is
below the 1e-4 normalisation guard (coincident centres included) and
whose disks overlap, the narrow phase emits a record with the zero
normal, and applying correctVelocities and then correctPositions to
that record leaves the whole store (in particular both disks'
velocities and positions) unchanged, provided at least one disk has
positive inverse mass (inverse masses being nonnegative). -/
theorem nearCoincident_record_noop (sq : ℚ → ℚ) (restitution worldBoundX worldBoundY : ℚ)
    (i j : ℕ) (p1 p2 : Vector2) (firstRadius secondRadius : ℚ) (s : CircleData)
    (hlen : sq ((p2.sub p1).lengthSquared) < 1 / 10000)
    (hoverlap : (p2.sub p1).lengthSquared
      < (firstRadius + secondRadius) * (firstRadius + secondRadius))
    (hnn1 : 0 ≤ s.inverseMasses.getD i 0) (hnn2 : 0 ≤ s.inverseMasses.getD j 0)
    (hone : 0 < s.inverseMasses.getD i 0 ∨ 0 < s.inverseMasses.getD j 0) :
    checkCollision sq i j p1 p2 firstRadius secondRadius
      = some ⟨i, j, ⟨0, 0⟩, (firstRadius + secondRadius) - sq ((p2.sub p1).lengthSquared)⟩
    ∧ correctVelocities restitution
        ⟨i, j, ⟨0, 0⟩, (firstRadius + secondRadius) - sq ((p2.sub p1).lengthSquared)⟩ s = some s
    ∧ correctPositions worldBoundX worldBoundY
        ⟨i, j, ⟨0, 0⟩, (firstRadius + secondRadius) - sq ((p2.sub p1).lengthSquared)⟩ s = s := by
  have htot : 0 < s.inverseMasses.getD i 0 + s.inverseMasses.getD j 0 := by
    rcases hone with h | h <;> linarith
  refine ⟨?_, ?_, ?_⟩
  · simp only [checkCollision]
    rw [if_pos hoverlap]
    simp only [Vector2.normalized, Vector2.length]
    rw [if_pos hlen]
  · simp only [correctVelocities, Vector2.sub, Vector2.dot, Vector2.smul]
    rw [if_neg (by norm_num), if_neg htot.ne']
    simp [set_getD_self, set_getElem?_getD_self]
  · simp only [correctPositions, Vector2.smul]
    rw [if_neg (not_le.mpr htot)]
    simp only [correctAxis, zero_mul]
    rw [if_neg (by norm_num), if_neg (by norm_num)]
    simp [set_getD_self, set_getElem?_getD_self]

/-- Witness for C9 at a concrete input: centres 1/20000 apart,
overlapping unit disks, both inverse masses positive. -/
theorem nearCoincident_record_noop_witness :
    checkCollision sqC9 0 1 ⟨0, 0⟩ ⟨1/20000, 0⟩ 1 1
      = some ⟨0, 1, ⟨0, 0⟩,
          (1 + 1) - sqC9 (((⟨1/20000, 0⟩ : Vector2).sub ⟨0, 0⟩).lengthSquared)⟩
    ∧ correctVelocities (4/5)
        ⟨0, 1, ⟨0, 0⟩,
          (1 + 1) - sqC9 (((⟨1/20000, 0⟩ : Vector2).sub ⟨0, 0⟩).lengthSquared)⟩ wallSample
        = some wallSample
    ∧ correctPositions 2 2
        ⟨0, 1, ⟨0, 0⟩,
          (1 + 1) - sqC9 (((⟨1/20000, 0⟩ : Vector2).sub ⟨0, 0⟩).lengthSquared)⟩ wallSample
        = wallSample :=
  nearCoincident_record_noop sqC9 (4/5) 2 2 0 1 ⟨0, 0⟩ ⟨1/20000, 0⟩ 1 1 wallSample
    (by norm_num [sqC9, Vector2.sub, Vector2.lengthSquared])
    (by norm_num [Vector2.sub, Vector2.lengthSquared])
    (by norm_num [wallSample]) (by norm_num [wallSample])
    (Or.inl (by norm_num [wallSample]))

theorem addCircle_getCircleCount (s : CircleData) (p v : Vector2)
    (im rad re gr bl ow : ℚ) :
    (s.addCircle p v im rad re gr bl ow).getCircleCount = s.getCircleCount + 1 := by
  simp [CircleData.addCircle, CircleData.getCircleCount]

theorem spawnLoop_getCircleCount (config : Config) (stream : ℕ → SpawnDraw)
    (k : ℕ) : ∀ (used : ℕ) (s : CircleData),
    (spawnLoop config stream k used s).getCircleCount = s.getCircleCount + k := by
  induction k with
  | zero => intro used s; simp [spawnLoop]
  | succ n ih =>
    intro used s
    simp only [spawnLoop, ih, spawnOne, addCircle_getCircleCount]
    omega

theorem spawnCircles_getCircleCount (config : Config) (stream : ℕ → SpawnDraw)
    (simulationTime : ℚ) (s : CircleData) :
    ((spawnCircles config stream simulationTime s).getCircleCount : ℤ)
      = max (s.getCircleCount : ℤ) (expectedSpawnCount config simulationTime) := by
  simp only [spawnCircles, spawnLoop_getCircleCount]
  omega

/-- C5 as amended: for simulationTime ≥ 0 and live count N ≤ spawnLimit
the spawn pass brings the live count exactly up to max(N, target),
where target = spawnLimit whenever spawnRate is NOT positive (the code
tests spawnRate > 0, not spawnRate = 0), and
target = min(floor(spawnRate * simulationTime), spawnLimit) when
spawnRate > 0; the count never decreases and never exceeds
spawnLimit. -/
theorem spawnCircles_count_correct (config : Config) (stream : ℕ → SpawnDraw)
    (simulationTime : ℚ) (s : CircleData)
    (hN : (s.getCircleCount : ℤ) ≤ config.spawnLimit) (ht : 0 ≤ simulationTime) :
    ((spawnCircles config stream simulationTime s).getCircleCount : ℤ)
      = max (s.getCircleCount : ℤ) (expectedSpawnCount config simulationTime)
    ∧ (¬ 0 < config.spawnRate →
        expectedSpawnCount config simulationTime = config.spawnLimit)
    ∧ (0 < config.spawnRate →
        expectedSpawnCount config simulationTime
          = min ⌊config.spawnRate * simulationTime⌋ config.spawnLimit)
    ∧ s.getCircleCount ≤ (spawnCircles config stream simulationTime s).getCircleCount
    ∧ ((spawnCircles config stream simulationTime s).getCircleCount : ℤ)
        ≤ config.spawnLimit := by
  have hmain := spawnCircles_getCircleCount config stream simulationTime s
  have hexp : expectedSpawnCount config simulationTime ≤ config.spawnLimit := by
    unfold expectedSpawnCount
    split_ifs with h
    · exact min_le_right _ _
    · exact le_refl _
  refine ⟨hmain, ?_, ?_, ?_, ?_⟩
  · intro h
    unfold expectedSpawnCount
    rw [if_neg (by simpa using h)]
  · intro h
    unfold expectedSpawnCount
    rw [if_pos (by simpa using h)]
    have hx : 0 ≤ config.spawnRate * simulationTime := mul_nonneg h.le ht
    unfold truncQ
    rw [if_pos hx]
  · have : (s.getCircleCount : ℤ) ≤ ((spawnCircles config stream simulationTime s).getCircleCount : ℤ) := by
      rw [hmain]; exact le_max_left _ _
    exact_mod_cast this
  · rw [hmain]
    exact max_le hN hexp

/-- Witness for C5 as amended at a concrete input. -/
theorem spawnCircles_count_correct_witness :
    ((spawnCircles sampleConfig sampleStream 0 emptyStore).getCircleCount : ℤ)
      = max (emptyStore.getCircleCount : ℤ) (expectedSpawnCount sampleConfig 0)
    ∧ (¬ 0 < sampleConfig.spawnRate →
        expectedSpawnCount sampleConfig 0 = sampleConfig.spawnLimit)
    ∧ (0 < sampleConfig.spawnRate →
        expectedSpawnCount sampleConfig 0
          = min ⌊sampleConfig.spawnRate * 0⌋ sampleConfig.spawnLimit)
    ∧ emptyStore.getCircleCount ≤ (spawnCircles sampleConfig sampleStream 0 emptyStore).getCircleCount
    ∧ ((spawnCircles sampleConfig sampleStream 0 emptyStore).getCircleCount : ℤ)
        ≤ sampleConfig.spawnLimit :=
  spawnCircles_count_correct sampleConfig sampleStream 0 emptyStore
    (by norm_num [emptyStore, CircleData.getCircleCount, sampleConfig]) le_rfl

/-- Counterexample to C5 as stated: with the reachable configuration
spawnRate = -1 the spec formula (target = min(floor(rate * t), limit)
for rate different from 0) predicts a final count of 0, but the code
takes the spawnRate > 0 test and spawns up to the limit 2. -/
theorem spawnCircles_negative_rate_diverges :
    ((spawnCircles negRateConfig sampleStream 1 emptyStore).getCircleCount : ℤ) = 2
    ∧ max (emptyStore.getCircleCount : ℤ) (claimTargetC5 negRateConfig 1) = 0
    ∧ (2 : ℤ) ≠ 0 := by
  refine ⟨?_, ?_, by norm_num⟩
  · rw [spawnCircles_getCircleCount]
    norm_num [emptyStore, CircleData.getCircleCount, expectedSpawnCount, negRateConfig]
  · norm_num [claimTargetC5, negRateConfig, emptyStore, CircleData.getCircleCount]

theorem ctrlIter_inv (scalePhysics : Bool) (configFrequency stepTime : ℚ)
    (s : CtrlState) (hf : 0 < s.actualPhysicsFrequency)
    (hdt : s.fixedTimeStep = 1 / s.actualPhysicsFrequency) :
    0 < (ctrlIter scalePhysics configFrequency stepTime s).actualPhysicsFrequency
    ∧ (ctrlIter scalePhysics configFrequency stepTime s).fixedTimeStep
      = 1 / (ctrlIter scalePhysics configFrequency stepTime s).actualPhysicsFrequency := by
  unfold ctrlIter
  dsimp only
  split_ifs with h1 h2 h3 <;> (try dsimp only) <;> constructor <;> first
    | linarith [h2.1]
    | linarith [h3.1]
    | linarith

theorem ctrlRun_inv (scalePhysics : Bool) (configFrequency : ℚ) (ts : List ℚ) :
    ∀ s : CtrlState, 0 < s.actualPhysicsFrequency →
      s.fixedTimeStep = 1 / s.actualPhysicsFrequency →
      0 < (ctrlRun scalePhysics configFrequency ts s).actualPhysicsFrequency
      ∧ (ctrlRun scalePhysics configFrequency ts s).fixedTimeStep
        = 1 / (ctrlRun scalePhysics configFrequency ts s).actualPhysicsFrequency := by
  induction ts with
  | nil => intro s hf hdt; exact ⟨hf, hdt⟩
  | cons t ts ih =>
    intro s hf hdt
    unfold ctrlRun
    split_ifs with hguard
    · obtain ⟨h1, h2⟩ := ctrlIter_inv scalePhysics configFrequency t s hf hdt
      exact ih _ h1 h2
    · exact ⟨hf, hdt⟩

theorem ctrlRun_acc_nonneg (configFrequency : ℚ) (ts : List ℚ) :
    ∀ s : CtrlState, 0 ≤ s.accumulator →
      0 ≤ (ctrlRun false configFrequency ts s).accumulator := by
  induction ts with
  | nil => intro s hacc; exact hacc
  | cons t ts ih =>
    intro s hacc
    unfold ctrlRun
    split_ifs with hguard
    · refine ih _ ?_
      simp only [ctrlIter, Bool.false_eq_true, if_false]
      linarith
    · exact hacc

theorem countDecreases_scale_off (configFrequency : ℚ) (ts : List ℚ) :
    ∀ s : CtrlState, countDecreases false configFrequency ts s = 0 := by
  induction ts with
  | nil => intro s; rfl
  | cons t ts ih =>
    intro s
    unfold countDecreases
    split_ifs with hguard hfired
    · simp [decreaseFired] at hfired
    · simp [ih]
    · rfl

theorem ctrlIter_nofire (scalePhysics : Bool) (configFrequency stepTime : ℚ)
    (s : CtrlState) (hf : 0 < s.actualPhysicsFrequency)
    (hdt : s.fixedTimeStep = 1 / s.actualPhysicsFrequency)
    (hnofire : decreaseFired scalePhysics stepTime s = false) :
    (ctrlIter scalePhysics configFrequency stepTime s).fixedTimeStep ≤ s.fixedTimeStep
    ∧ (ctrlIter scalePhysics configFrequency stepTime s).accumulator
      = s.accumulator
        - (ctrlIter scalePhysics configFrequency stepTime s).fixedTimeStep := by
  unfold ctrlIter
  cases scalePhysics with
  | false =>
    simp only [Bool.false_eq_true, if_false]
    exact ⟨le_refl _, by trivial⟩
  | true =>
    have hcond : ¬(s.actualPhysicsFrequency > 10 ∧ stepTime > s.fixedTimeStep) := by
      simpa [decreaseFired] using hnofire
    rw [if_pos rfl, if_neg hcond]
    split_ifs with hinc
    · dsimp only
      refine ⟨?_, rfl⟩
      rw [hdt]
      exact one_div_le_one_div_of_le hf (by linarith)
    · exact ⟨le_refl _, rfl⟩

theorem ctrlRun_acc_nonneg_of_no_decrease (scalePhysics : Bool)
    (configFrequency : ℚ) (ts : List ℚ) :
    ∀ s : CtrlState, 0 < s.actualPhysicsFrequency →
      s.fixedTimeStep = 1 / s.actualPhysicsFrequency → 0 ≤ s.accumulator →
      countDecreases scalePhysics configFrequency ts s = 0 →
      0 ≤ (ctrlRun scalePhysics configFrequency ts s).accumulator := by
  induction ts with
  | nil => intro s _ _ hacc _; exact hacc
  | cons t ts ih =>
    intro s hf hdt hacc hnd
    unfold ctrlRun
    unfold countDecreases at hnd
    split_ifs with hguard
    · rw [if_pos hguard] at hnd
      have hfired : decreaseFired scalePhysics t s = false := by
        by_cases hq : decreaseFired scalePhysics t s = true
        · rw [if_pos hq] at hnd
          omega
        · exact Bool.not_eq_true _ |>.mp hq
      have hrest : countDecreases scalePhysics configFrequency ts
          (ctrlIter scalePhysics configFrequency t s) = 0 := by
        rw [hfired] at hnd
        simpa using hnd
      obtain ⟨hf1, hdt1⟩ := ctrlIter_inv scalePhysics configFrequency t s hf hdt
      obtain ⟨hle, heq⟩ := ctrlIter_nofire scalePhysics configFrequency t s hf hdt hfired
      have hacc1 : 0 ≤ (ctrlIter scalePhysics configFrequency t s).accumulator := by
        rw [heq]
        linarith
      exact ih _ hf1 hdt1 hacc1 hrest
    · exact hacc

/-- C7 as amended: at every exit of the fixed-timestep loop (any
sequence of steps and adaptive frequency changes, with a positive
frequency) the interpolation factor satisfies alpha < 1; whenever no
adaptive frequency decrease fires during the loop the accumulator stays
nonnegative, so 0 ≤ alpha at exit as well; and with adaptive scaling
disabled no decrease ever fires.  With scaling enabled a frequency
decrease during the loop can leave a negative accumulator, so 0 ≤ alpha
can fail. -/
theorem ctrl_interpolation_factor_bounds (scalePhysics : Bool)
    (configFrequency : ℚ) (ts : List ℚ) (s : CtrlState)
    (hf : 0 < s.actualPhysicsFrequency)
    (hdt : s.fixedTimeStep = 1 / s.actualPhysicsFrequency)
    (hacc : 0 ≤ s.accumulator) :
    ((ctrlRun scalePhysics configFrequency ts s).accumulator
        < (ctrlRun scalePhysics configFrequency ts s).fixedTimeStep →
      interpolationFactor (ctrlRun scalePhysics configFrequency ts s) < 1)
    ∧ (countDecreases scalePhysics configFrequency ts s = 0 →
        0 ≤ (ctrlRun scalePhysics configFrequency ts s).accumulator
        ∧ ((ctrlRun scalePhysics configFrequency ts s).accumulator
            < (ctrlRun scalePhysics configFrequency ts s).fixedTimeStep →
          0 ≤ interpolationFactor (ctrlRun scalePhysics configFrequency ts s)))
    ∧ (scalePhysics = false →
        countDecreases scalePhysics configFrequency ts s = 0) := by
  obtain ⟨hfr, hdtr⟩ := ctrlRun_inv scalePhysics configFrequency ts s hf hdt
  have hdtpos : 0 < (ctrlRun scalePhysics configFrequency ts s).fixedTimeStep := by
    rw [hdtr]; positivity
  refine ⟨?_, ?_, ?_⟩
  · intro hexit
    exact (div_lt_one hdtpos).mpr hexit
  · intro hnd
    have hnn := ctrlRun_acc_nonneg_of_no_decrease scalePhysics configFrequency ts s
      hf hdt hacc hnd
    exact ⟨hnn, fun _ => div_nonneg hnn hdtpos.le⟩
  · intro hscale
    subst hscale
    exact countDecreases_scale_off configFrequency ts s

/-- Witness for C7 as amended at a concrete input. -/
theorem ctrl_interpolation_factor_bounds_witness :
    ((ctrlRun false 60 [1] ⟨1/30, 60, 1/60⟩).accumulator
        < (ctrlRun false 60 [1] ⟨1/30, 60, 1/60⟩).fixedTimeStep →
      interpolationFactor (ctrlRun false 60 [1] ⟨1/30, 60, 1/60⟩) < 1)
    ∧ (countDecreases false 60 [1] ⟨1/30, 60, 1/60⟩ = 0 →
        0 ≤ (ctrlRun false 60 [1] ⟨1/30, 60, 1/60⟩).accumulator
        ∧ ((ctrlRun false 60 [1] ⟨1/30, 60, 1/60⟩).accumulator
            < (ctrlRun false 60 [1] ⟨1/30, 60, 1/60⟩).fixedTimeStep →
          0 ≤ interpolationFactor (ctrlRun false 60 [1] ⟨1/30, 60, 1/60⟩)))
    ∧ (false = false → countDecreases false 60 [1] ⟨1/30, 60, 1/60⟩ = 0) :=
  ctrl_interpolation_factor_bounds false 60 [1] ⟨1/30, 60, 1/60⟩
    (by norm_num) (by norm_num) (by norm_num)

/-- Counterexample to C7 as stated: with adaptive scaling enabled, a
step slower than the timestep at frequency 60 lowers the frequency to
59, and the accumulator 1/60 is then decremented by the new timestep
1/59, leaving a negative accumulator at a genuine loop exit; the
exposed interpolation factor is negative, violating 0 ≤ alpha. -/
theorem ctrl_interpolation_factor_negative :
    interpolationFactor (ctrlRun true 60 [1] ⟨1/60, 60, 1/60⟩) < 0
    ∧ (ctrlRun true 60 [1] ⟨1/60, 60, 1/60⟩).accumulator
        < (ctrlRun true 60 [1] ⟨1/60, 60, 1/60⟩).fixedTimeStep := by
  norm_num [ctrlRun, ctrlIter, interpolationFactor]

/-! ## Broad-phase emptiness lemmas: a grid holding at most one index
yields no candidate pairs. -/

theorem intraPairs_eq_nil (l : List ℕ) (h : l.length ≤ 1) : intraPairs l = [] := by
  match l, h with
  | [], _ => rfl
  | [a], _ => rfl

theorem crossPairs_eq_nil {c n : List ℕ} (h : c = [] ∨ n = []) :
    crossPairs c n = [] := by
  rcases h with h | h <;> subst h <;> simp [crossPairs]

theorem length_getD_le_sum (g : List (List ℕ)) : ∀ p : ℕ,
    (g.getD p []).length ≤ (g.map List.length).sum := by
  induction g with
  | nil => intro p; simp
  | cons h t ih =>
    intro p
    cases p with
    | zero => simp [List.getD_cons_zero]
    | succ q =>
      simp only [List.getD_cons_succ, List.map_cons, List.sum_cons]
      exact le_add_of_nonneg_of_le (Nat.zero_le _) (ih q)

theorem getD_nil_of_two (g : List (List ℕ)) : ∀ p q : ℕ, p ≠ q →
    (g.map List.length).sum ≤ 1 →
    g.getD p [] = [] ∨ g.getD q [] = [] := by
  induction g with
  | nil => intro p q _ _; left; rfl
  | cons h t ih =>
    intro p q hpq hsum
    simp only [List.map_cons, List.sum_cons] at hsum
    cases p with
    | zero =>
      cases q with
      | zero => exact absurd rfl hpq
      | succ q1 =>
        by_cases hh : h = []
        · left; simpa [List.getD_cons_zero] using hh
        · right
          have hlen : 1 ≤ h.length := Nat.one_le_iff_ne_zero.mpr
            (fun h0 => hh (List.eq_nil_of_length_eq_zero h0))
          have hz : (t.map List.length).sum = 0 := by omega
          have := length_getD_le_sum t q1
          rw [hz] at this
          simpa [List.getD_cons_succ] using List.eq_nil_of_length_eq_zero (Nat.le_zero.mp this)
    | succ p1 =>
      cases q with
      | zero =>
        by_cases hh : h = []
        · right; simpa [List.getD_cons_zero] using hh
        · left
          have hlen : 1 ≤ h.length := Nat.one_le_iff_ne_zero.mpr
            (fun h0 => hh (List.eq_nil_of_length_eq_zero h0))
          have hz : (t.map List.length).sum = 0 := by omega
          have := length_getD_le_sum t p1
          rw [hz] at this
          simpa [List.getD_cons_succ] using List.eq_nil_of_length_eq_zero (Nat.le_zero.mp this)
      | succ q1 =>
        have := ih p1 q1 (fun hx => hpq (by rw [hx])) (by omega)
        simpa [List.getD_cons_succ] using this

theorem cellPairs_eq_nil (grid : List (List ℕ)) (cellCountX cellCountY x y : ℕ)
    (hx : x < cellCountX) (hsum : (grid.map List.length).sum ≤ 1) :
    cellPairs grid cellCountX cellCountY x y = [] := by
  have hcell : (cellAt grid cellCountX x y).length ≤ 1 :=
    le_trans (length_getD_le_sum grid _) hsum
  have hintra : intraPairs (cellAt grid cellCountX x y) = [] := intraPairs_eq_nil _ hcell
  have hright : (if x + 1 < cellCountX then
      crossPairs (cellAt grid cellCountX x y) (cellAt grid cellCountX (x + 1) y)
      else []) = [] := by
    split_ifs with hg
    · exact crossPairs_eq_nil (getD_nil_of_two grid _ _ (by omega) hsum)
    · rfl
  have hmul : (y + 1) * cellCountX = y * cellCountX + cellCountX := by ring
  have hdown : (if y + 1 < cellCountY then
      crossPairs (cellAt grid cellCountX x y) (cellAt grid cellCountX x (y + 1))
      else []) = [] := by
    split_ifs with hg
    · exact crossPairs_eq_nil (getD_nil_of_two grid _ _ (by omega) hsum)
    · rfl
  have hdr : (if x + 1 < cellCountX ∧ y + 1 < cellCountY then
      crossPairs (cellAt grid cellCountX x y) (cellAt grid cellCountX (x + 1) (y + 1))
      else []) = [] := by
    split_ifs with hg
    · exact crossPairs_eq_nil (getD_nil_of_two grid _ _ (by omega) hsum)
    · rfl
  have hdl : (if 0 < x ∧ y + 1 < cellCountY then
      crossPairs (cellAt grid cellCountX x y) (cellAt grid cellCountX (x - 1) (y + 1))
      else []) = [] := by
    split_ifs with hg
    · exact crossPairs_eq_nil (getD_nil_of_two grid _ _ (by
        have h1 : 1 ≤ x := hg.1
        omega) hsum)
    · rfl
  unfold cellPairs
  rw [hintra, hright, hdown, hdr, hdl]
  rfl

theorem getPotentialCollisions_eq_nil (grid : List (List ℕ)) (cellCountX cellCountY : ℕ)
    (hsum : (grid.map List.length).sum ≤ 1) :
    getPotentialCollisions grid cellCountX cellCountY = [] := by
  unfold getPotentialCollisions
  rw [List.flatMap_eq_nil_iff]
  intro y _
  rw [List.flatMap_eq_nil_iff]
  intro x hx
  exact cellPairs_eq_nil grid cellCountX cellCountY x y (List.mem_range.mp hx) hsum

theorem sum_lengths_gridInsert_le (worldBoundX worldBoundY cellSize : ℚ)
    (cellCountX cellCountY : ℕ) (grid : List (List ℕ)) (value : ℕ) (position : Vector2) :
    (((gridInsert worldBoundX worldBoundY cellSize cellCountX cellCountY grid value position).map
        List.length).sum)
      ≤ (grid.map List.length).sum + 1 := by
  unfold gridInsert
  cases worldToCell worldBoundX worldBoundY cellSize cellCountX cellCountY position with
  | none => dsimp only; omega
  | some cell =>
    obtain ⟨cx, cy⟩ := cell
    dsimp only
    generalize cy * cellCountX + cx = idx
    induction grid generalizing idx with
    | nil => simp
    | cons h t ih =>
      cases idx with
      | zero =>
        simp only [List.getD_cons_zero, List.set_cons_zero, List.map_cons, List.sum_cons,
          List.length_append, List.length_cons, List.length_nil]
        omega
      | succ k =>
        simp only [List.getD_cons_succ, List.set_cons_succ, List.map_cons, List.sum_cons]
        have := ih k
        omega

theorem sum_lengths_buildGrid_le (config : Config) (worldBoundX worldBoundY : ℚ)
    (s : CircleData) :
    ((buildGrid config worldBoundX worldBoundY s).map List.length).sum
      ≤ s.getCircleCount := by
  unfold buildGrid
  dsimp only
  have hbase : ∀ (l : List ℕ) (g : List (List ℕ)),
      (((l.foldl (fun grid i =>
          gridInsert worldBoundX worldBoundY (cellSizeOf config)
            (cellCountOf worldBoundX (cellSizeOf config))
            (cellCountOf worldBoundY (cellSizeOf config)) grid i
            ⟨s.positionsX.getD i 0, s.positionsY.getD i 0⟩) g).map List.length).sum)
        ≤ (g.map List.length).sum + l.length := by
    intro l
    induction l with
    | nil => intro g; simp
    | cons a t ih =>
      intro g
      simp only [List.foldl_cons, List.length_cons]
      have h1 := ih (gridInsert worldBoundX worldBoundY (cellSizeOf config)
        (cellCountOf worldBoundX (cellSizeOf config))
        (cellCountOf worldBoundY (cellSizeOf config)) g a
        ⟨s.positionsX.getD a 0, s.positionsY.getD a 0⟩)
      have h2 := sum_lengths_gridInsert_le worldBoundX worldBoundY (cellSizeOf config)
        (cellCountOf worldBoundX (cellSizeOf config))
        (cellCountOf worldBoundY (cellSizeOf config)) g a
        ⟨s.positionsX.getD a 0, s.positionsY.getD a 0⟩
      omega
  have := hbase (List.range s.getCircleCount)
    (List.replicate (cellCountOf worldBoundX (cellSizeOf config)
      * cellCountOf worldBoundY (cellSizeOf config)) [])
  simpa [List.map_replicate, List.sum_replicate] using this

theorem allPairs_eq_nil (n : ℕ) (h : n ≤ 1) : allPairs n = [] := by
  match n, h with
  | 0, _ => rfl
  | 1, _ => rfl

theorem detectCollisions_eq_nil (useSpatialPartitioning : Bool) (sq : ℚ → ℚ)
    (config : Config) (worldBoundX worldBoundY : ℚ) (s : CircleData)
    (h : s.getCircleCount ≤ 1) :
    detectCollisions useSpatialPartitioning sq config worldBoundX worldBoundY s = [] := by
  unfold detectCollisions potentialCollisionPairs
  split_ifs with hflag
  · rw [getPotentialCollisions_eq_nil _ _ _
      (le_trans (sum_lengths_buildGrid_le config worldBoundX worldBoundY s) h)]
    rfl
  · rw [allPairs_eq_nil _ h]
    rfl

theorem applyPositionCorrections_nil (worldBoundX worldBoundY : ℚ) (s : CircleData) :
    applyPositionCorrections worldBoundX worldBoundY [] s = s := rfl

theorem positionIterations_nil (useSpatialPartitioning : Bool) (sq : ℚ → ℚ)
    (config : Config) (worldBoundX worldBoundY : ℚ) :
    ∀ (k : ℕ) (s : CircleData),
      detectCollisions useSpatialPartitioning sq config worldBoundX worldBoundY s = [] →
      positionIterations useSpatialPartitioning sq config worldBoundX worldBoundY k [] s = s := by
  intro k
  induction k with
  | zero => intro s _; rfl
  | succ n ih =>
    intro s hdet
    unfold positionIterations
    rw [applyPositionCorrections_nil]
    cases n with
    | zero => rfl
    | succ m =>
      simp only [Nat.succ_ne_zero, if_false]
      rw [hdet]
      exact ih s hdet

theorem resolveCollisions_nil (useSpatialPartitioning : Bool) (sq : ℚ → ℚ)
    (config : Config) (worldBoundX worldBoundY : ℚ) (s : CircleData)
    (hdet : detectCollisions useSpatialPartitioning sq config worldBoundX worldBoundY s = []) :
    resolveCollisions useSpatialPartitioning sq config worldBoundX worldBoundY [] s
      = some s := by
  unfold resolveCollisions
  simp only [List.foldlM_nil, Option.map, pure]
  rw [positionIterations_nil useSpatialPartitioning sq config worldBoundX worldBoundY
    config.correctionIterations.toNat s hdet]

theorem snapshotPreviousPositions_getCircleCount (s : CircleData) :
    (snapshotPreviousPositions s).getCircleCount = s.getCircleCount := rfl

theorem integrate_getCircleCount (config : Config) (deltaTime : ℚ) (s : CircleData) :
    (integrate config deltaTime s).getCircleCount = s.getCircleCount := by
  simp [integrate, CircleData.getCircleCount]

theorem resolveWallCollisions_getCircleCount (restitution worldBoundX worldBoundY : ℚ)
    (s : CircleData) :
    (resolveWallCollisions restitution worldBoundX worldBoundY s).getCircleCount
      = s.getCircleCount := by
  simp [resolveWallCollisions, CircleData.getCircleCount]

theorem spawnCircles_noop (config : Config) (stream : ℕ → SpawnDraw)
    (simulationTime : ℚ) (s : CircleData)
    (h : expectedSpawnCount config simulationTime ≤ (s.getCircleCount : ℤ)) :
    spawnCircles config stream simulationTime s = s := by
  unfold spawnCircles
  show spawnLoop config stream
    (expectedSpawnCount config simulationTime - (s.getCircleCount : ℤ)).toNat 0 s = s
  rw [Int.toNat_of_nonpos (by omega)]
  rfl

theorem tick_single (useSpatialPartitioning : Bool) (sq : ℚ → ℚ) (config : Config)
    (worldBoundX worldBoundY : ℚ) (deltaTime : ℚ) (s : CircleData)
    (x0 y0 vx0 vy0 rad im : ℚ)
    (hpx : s.positionsX = [x0]) (hpy : s.positionsY = [y0])
    (hvx : s.velocitiesX = [vx0]) (hvy : s.velocitiesY = [vy0])
    (hrad : s.radii = [rad]) (him : s.inverseMasses.getD 0 0 = im) :
    resolveCollisions useSpatialPartitioning sq config worldBoundX worldBoundY
      (detectCollisions useSpatialPartitioning sq config worldBoundX worldBoundY
        (resolveWallCollisions config.restitution worldBoundX worldBoundY
          (integrate config deltaTime (snapshotPreviousPositions s))))
      (resolveWallCollisions config.restitution worldBoundX worldBoundY
        (integrate config deltaTime (snapshotPreviousPositions s)))
      = some (singleTick config worldBoundX worldBoundY deltaTime s x0 y0 vx0 vy0 rad im) := by
  have hcount : s.getCircleCount = 1 := by
    rw [CircleData.getCircleCount, hpx]
    rfl
  have hs3 : resolveWallCollisions config.restitution worldBoundX worldBoundY
      (integrate config deltaTime (snapshotPreviousPositions s))
      = singleTick config worldBoundX worldBoundY deltaTime s x0 y0 vx0 vy0 rad im := by
    simp only [snapshotPreviousPositions, integrate, resolveWallCollisions, singleTick,
      CircleData.getCircleCount, hpx, hpy, hvx, hvy, hrad, him, List.length_cons,
      List.length_nil, zero_add, List.range_succ, List.range_zero, List.nil_append,
      List.map_cons, List.map_nil, List.getD_cons_zero]
  have hdetcnt : (resolveWallCollisions config.restitution worldBoundX worldBoundY
      (integrate config deltaTime (snapshotPreviousPositions s))).getCircleCount ≤ 1 := by
    rw [resolveWallCollisions_getCircleCount, integrate_getCircleCount,
      snapshotPreviousPositions_getCircleCount, hcount]
  have hdet := detectCollisions_eq_nil useSpatialPartitioning sq config
    worldBoundX worldBoundY _ hdetcnt
  rw [hdet,
    resolveCollisions_nil useSpatialPartitioning sq config worldBoundX worldBoundY _ hdet,
    hs3]

theorem step_single (useSpatialPartitioning : Bool) (sq : ℚ → ℚ) (config : Config)
    (worldBoundX worldBoundY : ℚ) (stream : ℕ → SpawnDraw)
    (simulationTime deltaTime : ℚ) (s : CircleData) (x0 y0 vx0 vy0 rad im : ℚ)
    (hpx : s.positionsX = [x0]) (hpy : s.positionsY = [y0])
    (hvx : s.velocitiesX = [vx0]) (hvy : s.velocitiesY = [vy0])
    (hrad : s.radii = [rad]) (him : s.inverseMasses.getD 0 0 = im)
    (hspawn : expectedSpawnCount config simulationTime ≤ 1) :
    step useSpatialPartitioning sq config worldBoundX worldBoundY stream
      simulationTime deltaTime s
      = some (singleTick config worldBoundX worldBoundY deltaTime s x0 y0 vx0 vy0 rad im) := by
  have hcount : s.getCircleCount = 1 := by
    rw [CircleData.getCircleCount, hpx]
    rfl
  have hsp : spawnCircles config stream simulationTime s = s :=
    spawnCircles_noop config stream simulationTime s (by rw [hcount]; exact_mod_cast hspawn)
  unfold step
  rw [hsp]
  dsimp only
  exact tick_single useSpatialPartitioning sq config worldBoundX worldBoundY deltaTime s
    x0 y0 vx0 vy0 rad im hpx hpy hvx hvy hrad him

/-- C8 as amended: for the engine state with zero live disks, for every
simulationTime and deltaTime whose spawn target is not positive (for
example spawnLimit = 0, or spawnRate > 0 with
spawnRate * simulationTime < 1), step leaves the entire engine state
unchanged: no disk is spawned and no column is modified. -/
theorem step_empty_noop (useSpatialPartitioning : Bool) (sq : ℚ → ℚ) (config : Config)
    (worldBoundX worldBoundY : ℚ) (stream : ℕ → SpawnDraw)
    (simulationTime deltaTime : ℚ)
    (htarget : expectedSpawnCount config simulationTime ≤ 0) :
    step useSpatialPartitioning sq config worldBoundX worldBoundY stream
      simulationTime deltaTime emptyStore = some emptyStore := by
  have hsp : spawnCircles config stream simulationTime emptyStore = emptyStore :=
    spawnCircles_noop config stream simulationTime emptyStore
      (by simpa [emptyStore, CircleData.getCircleCount] using htarget)
  have hs1 : snapshotPreviousPositions emptyStore = emptyStore := rfl
  have hs2 : integrate config deltaTime emptyStore = emptyStore := rfl
  have hs3 : resolveWallCollisions config.restitution worldBoundX worldBoundY emptyStore
      = emptyStore := rfl
  have hdet := detectCollisions_eq_nil useSpatialPartitioning sq config
    worldBoundX worldBoundY emptyStore (by simp [emptyStore, CircleData.getCircleCount])
  unfold step
  rw [hsp]
  dsimp only
  rw [hs1, hs2, hs3, hdet,
    resolveCollisions_nil useSpatialPartitioning sq config worldBoundX worldBoundY _ hdet]

/-- Witness for C8 as amended at a concrete input (spawnRate 2 and
simulationTime 0 give spawn target 0). -/
theorem step_empty_noop_witness :
    step true sqZero ⟨1/10, 1/2, 5, 0, 1/2, 1, 100, 2, 4⟩ 1 1 sampleStream 0 (1/2) emptyStore
      = some emptyStore :=
  step_empty_noop true sqZero ⟨1/10, 1/2, 5, 0, 1/2, 1, 100, 2, 4⟩ 1 1 sampleStream 0 (1/2)
    (by norm_num [expectedSpawnCount, truncQ])

/-- Counterexample to C8 as stated: with spawnLimit 1 and spawnRate 0
(target 1 > 0), a step from the state with zero live disks spawns one
disk, so the state is modified. -/
theorem step_empty_spawns :
    (step true sqZero c8Config 1 1 sampleStream 0 (1/2) emptyStore).map
        CircleData.getCircleCount = some 1
    ∧ (1 : ℕ) ≠ 0 := by
  refine ⟨?_, by decide⟩
  have hspawned : spawnCircles c8Config sampleStream 0 emptyStore = c8Spawned := by
    norm_num [spawnCircles, expectedSpawnCount, c8Config, emptyStore, c8Spawned,
      CircleData.getCircleCount, spawnLoop, spawnOne, sampleStream, CircleData.addCircle]
  unfold step
  rw [hspawned]
  dsimp only
  rw [tick_single true sqZero c8Config 1 1 (1/2) c8Spawned 0 0 0 0 (1/2) 4
    rfl rfl rfl rfl rfl rfl]
  rfl

/-- C6 as amended: a single disk at position exactly (Bx - r, 0) with
velocity (+v, 0), v > 0, that fits the container (r ≤ Bx, r ≤ By), on
which gravity does not act this tick (gravity 0 or nonpositive inverse
mass), with nothing spawned next to it, is reflected by one
step(simulationTime, dt) with dt > 0 to velocity (-v e, 0) and position
(Bx - r, 0), where e is the configured restitution. -/
theorem step_wall_reflection (useSpatialPartitioning : Bool) (sq : ℚ → ℚ)
    (config : Config) (worldBoundX worldBoundY : ℚ) (stream : ℕ → SpawnDraw)
    (simulationTime deltaTime : ℚ) (s : CircleData) (radius v : ℚ)
    (hpx : s.positionsX = [worldBoundX - radius]) (hpy : s.positionsY = [0])
    (hvx : s.velocitiesX = [v]) (hvy : s.velocitiesY = [0])
    (hrad : s.radii = [radius])
    (hv : 0 < v) (hdt : 0 < deltaTime)
    (hrx : radius ≤ worldBoundX) (hry : radius ≤ worldBoundY)
    (hgrav : config.gravity = 0 ∨ ¬ 0 < s.inverseMasses.getD 0 0)
    (hspawn : expectedSpawnCount config simulationTime ≤ 1) :
    step useSpatialPartitioning sq config worldBoundX worldBoundY stream
      simulationTime deltaTime s
      = some { s with
          positionsX := [worldBoundX - radius]
          positionsY := [0]
          previousPositionsX := [worldBoundX - radius]
          previousPositionsY := [0]
          velocitiesX := [-v * config.restitution]
          velocitiesY := [0] } := by
  rw [step_single useSpatialPartitioning sq config worldBoundX worldBoundY stream
    simulationTime deltaTime s (worldBoundX - radius) 0 v 0 radius
    (s.inverseMasses.getD 0 0) hpx hpy hvx hvy hrad rfl hspawn]
  have hvdt : 0 < v * deltaTime := mul_pos hv hdt
  have hvy1 : (if 0 < s.inverseMasses.getD 0 0
      then (0 : ℚ) - config.gravity * deltaTime else 0) = 0 := by
    rcases hgrav with hg | hm
    · rw [hg]; split_ifs <;> ring
    · rw [if_neg hm]
  unfold singleTick
  rw [hvy1]
  unfold resolveWall1
  rw [if_neg (by push_neg; nlinarith), if_pos (by nlinarith)]
  dsimp only
  rw [if_neg (by push_neg; linarith), if_neg (by push_neg; linarith)]
  norm_num

/-- Witness for C6 as amended at a concrete input. -/
theorem step_wall_reflection_witness :
    step true sqZero c6Config 1 1 sampleStream 0 (1/2) c6State
      = some { c6State with
          positionsX := [1 - 1/2]
          positionsY := [0]
          previousPositionsX := [1 - 1/2]
          previousPositionsY := [0]
          velocitiesX := [-1 * c6Config.restitution]
          velocitiesY := [0] } :=
  step_wall_reflection true sqZero c6Config 1 1 sampleStream 0 (1/2) c6State (1/2) 1
    rfl rfl rfl rfl rfl (by norm_num) (by norm_num) (by norm_num) (by norm_num)
    (Or.inl rfl) (by norm_num [expectedSpawnCount, c6Config])

/-- Counterexample to C6 as stated: the claim omits gravity.  With
gravity 1 and a movable disk (inverse mass 4), the tick leaves the
vertical velocity at -1/2 and the vertical position at -1/4, not 0. -/
theorem step_wall_reflection_gravity_diverges :
    (step true sqZero c6GravityConfig 2 2 sampleStream 0 (1/2) c6GravityState).map
        (fun t => (t.positionsY, t.velocitiesY)) = some ([-1/4], [-1/2])
    ∧ ([-1/4] : List ℚ) ≠ [0] ∧ ([-1/2] : List ℚ) ≠ [0] := by
  refine ⟨?_, by norm_num, by norm_num⟩
  rw [step_single true sqZero c6GravityConfig 2 2 sampleStream 0 (1/2) c6GravityState
    (2 - 1/2) 0 1 0 (1/2) 4 rfl rfl rfl rfl rfl rfl
    (by norm_num [expectedSpawnCount, c6GravityConfig])]
  norm_num [singleTick, resolveWall1, c6GravityConfig]

/-! ## Counting lemmas for the broad-phase pair-uniqueness claim -/

theorem upcount_nil (a b : ℕ) : upcount a b [] = 0 := rfl

theorem upcount_append (a b : ℕ) (l1 l2 : List (ℕ × ℕ)) :
    upcount a b (l1 ++ l2) = upcount a b l1 + upcount a b l2 :=
  List.countP_append _ _ _

theorem vcount_cons (c h : ℕ) (t : List ℕ) :
    vcount c (h :: t) = vcount c t + (if h = c then 1 else 0) := by
  simp [vcount, List.countP_cons]

theorem upcount_map_pair (a b h : ℕ) (t : List ℕ) (hab : a ≠ b) :
    upcount a b (t.map (fun x => (h, x)))
      = if h = a then vcount b t else if h = b then vcount a t else 0 := by
  unfold upcount vcount
  rw [List.countP_map]
  split_ifs with h1 h2
  · apply List.countP_congr
    intro x _
    subst h1
    simp [hab]
  · apply List.countP_congr
    intro x _
    subst h2
    simp [hab, Ne.symm hab]
  · rw [List.countP_eq_zero]
    intro x _
    simp only [Function.comp_apply, decide_eq_true_eq]
    rintro (⟨ha, _⟩ | ⟨hb, _⟩)
    · exact h1 ha
    · exact h2 hb

theorem upcount_intraPairs (a b : ℕ) (hab : a ≠ b) : ∀ l : List ℕ,
    upcount a b (intraPairs l) ≤ vcount a l * vcount b l := by
  intro l
  induction l with
  | nil => simp [intraPairs, upcount_nil]
  | cons h t ih =>
    rw [intraPairs, upcount_append, upcount_map_pair a b h t hab,
      vcount_cons, vcount_cons]
    by_cases h1 : h = a
    · have h2 : ¬ h = b := by rw [h1]; exact hab
      simp only [if_pos h1, if_neg h2]
      have hx : (vcount a t + 1) * (vcount b t + 0)
          = vcount a t * vcount b t + vcount b t := by ring
      linarith
    · by_cases h2 : h = b
      · simp only [if_neg h1, if_pos h2]
        have hx : (vcount a t + 0) * (vcount b t + 1)
            = vcount a t * vcount b t + vcount a t := by ring
        linarith
      · simp only [if_neg h1, if_neg h2]
        have hx : (vcount a t + 0) * (vcount b t + 0) = vcount a t * vcount b t := by ring
        linarith

theorem crossPairs_cons (h : ℕ) (t n : List ℕ) :
    crossPairs (h :: t) n = n.map (fun second => (h, second)) ++ crossPairs t n := rfl

theorem upcount_crossPairs (a b : ℕ) (hab : a ≠ b) (l2 : List ℕ) : ∀ l1 : List ℕ,
    upcount a b (crossPairs l1 l2)
      ≤ vcount a l1 * vcount b l2 + vcount b l1 * vcount a l2 := by
  intro l1
  induction l1 with
  | nil => simp [crossPairs, upcount_nil]
  | cons h t ih =>
    rw [crossPairs_cons, upcount_append, upcount_map_pair a b h l2 hab,
      vcount_cons, vcount_cons]
    have hc : upcount a b (crossPairs t l2)
        ≤ vcount a t * vcount b l2 + vcount b t * vcount a l2 := ih
    by_cases h1 : h = a
    · have h2 : ¬ h = b := by rw [h1]; exact hab
      simp only [if_pos h1, if_neg h2]
      have hx : (vcount a t + 1) * vcount b l2 + (vcount b t + 0) * vcount a l2
          = (vcount a t * vcount b l2 + vcount b t * vcount a l2) + vcount b l2 := by ring
      linarith
    · by_cases h2 : h = b
      · simp only [if_neg h1, if_pos h2]
        have hx : (vcount a t + 0) * vcount b l2 + (vcount b t + 1) * vcount a l2
            = (vcount a t * vcount b l2 + vcount b t * vcount a l2) + vcount a l2 := by ring
        linarith
      · simp only [if_neg h1, if_neg h2]
        have hx : (vcount a t + 0) * vcount b l2 + (vcount b t + 0) * vcount a l2
            = vcount a t * vcount b l2 + vcount b t * vcount a l2 := by ring
        linarith

theorem countP_flatMap {α β : Type} (p : β → Bool) (f : α → List β) :
    ∀ l : List α, (l.flatMap f).countP p = (l.map (fun x => (f x).countP p)).sum := by
  intro l
  induction l with
  | nil => rfl
  | cons h t ih =>
    rw [List.flatMap_cons, List.countP_append, List.map_cons, List.sum_cons, ih]

theorem list_sum_range (f : ℕ → ℕ) : ∀ n : ℕ,
    ((List.range n).map f).sum = ∑ i in Finset.range n, f i := by
  intro n
  induction n with
  | zero => rfl
  | succ k ih =>
    rw [List.range_succ, List.map_append, List.sum_append, Finset.sum_range_succ, ih]
    simp

theorem upcount_cellPairs_le (a b : ℕ) (hab : a ≠ b) (grid : List (List ℕ))
    (cellCountX cellCountY x y : ℕ) :
    upcount a b (cellPairs grid cellCountX cellCountY x y)
      ≤ vcount a (cellAt grid cellCountX x y) * vcount b (cellAt grid cellCountX x y)
      + (if x + 1 < cellCountX then
          vcount a (cellAt grid cellCountX x y) * vcount b (cellAt grid cellCountX (x + 1) y)
          + vcount b (cellAt grid cellCountX x y) * vcount a (cellAt grid cellCountX (x + 1) y)
        else 0)
      + (if y + 1 < cellCountY then
          vcount a (cellAt grid cellCountX x y) * vcount b (cellAt grid cellCountX x (y + 1))
          + vcount b (cellAt grid cellCountX x y) * vcount a (cellAt grid cellCountX x (y + 1))
        else 0)
      + (if x + 1 < cellCountX ∧ y + 1 < cellCountY then
          vcount a (cellAt grid cellCountX x y) * vcount b (cellAt grid cellCountX (x + 1) (y + 1))
          + vcount b (cellAt grid cellCountX x y) * vcount a (cellAt grid cellCountX (x + 1) (y + 1))
        else 0)
      + (if 0 < x ∧ y + 1 < cellCountY then
          vcount a (cellAt grid cellCountX x y) * vcount b (cellAt grid cellCountX (x - 1) (y + 1))
          + vcount b (cellAt grid cellCountX x y) * vcount a (cellAt grid cellCountX (x - 1) (y + 1))
        else 0) := by
  unfold cellPairs
  rw [upcount_append, upcount_append, upcount_append, upcount_append]
  refine add_le_add (add_le_add (add_le_add (add_le_add ?_ ?_) ?_) ?_) ?_
  · exact upcount_intraPairs a b hab _
  · split_ifs with hg
    · exact upcount_crossPairs a b hab _ _
    · exact le_refl 0
  · split_ifs with hg
    · exact upcount_crossPairs a b hab _ _
    · exact le_refl 0
  · split_ifs with hg
    · exact upcount_crossPairs a b hab _ _
    · exact le_refl 0
  · split_ifs with hg
    · exact upcount_crossPairs a b hab _ _
    · exact le_refl 0

theorem double_sum_ite_le (cellCountX cellCountY x0 y0 K : ℕ) :
    (∑ y in Finset.range cellCountY, ∑ x in Finset.range cellCountX,
      if x = x0 ∧ y = y0 then K else 0) ≤ K := by
  have hinner : ∀ y : ℕ, (∑ x in Finset.range cellCountX, if x = x0 ∧ y = y0 then K else 0)
      = if y = y0 then (if x0 ∈ Finset.range cellCountX then K else 0) else 0 := by
    intro y
    by_cases hy : y = y0
    · subst hy
      rw [if_pos rfl]
      rw [show (fun x => if x = x0 ∧ y = y then K else 0) = fun x => if x = x0 then K else 0
        from funext fun x => by simp]
      exact Finset.sum_ite_eq' (Finset.range cellCountX) x0 (fun _ => K)
    · simp [hy]
  calc (∑ y in Finset.range cellCountY, ∑ x in Finset.range cellCountX,
      if x = x0 ∧ y = y0 then K else 0)
      = ∑ y in Finset.range cellCountY,
          (if y = y0 then (if x0 ∈ Finset.range cellCountX then K else 0) else 0) :=
        Finset.sum_congr rfl (fun y _ => hinner y)
    _ = if y0 ∈ Finset.range cellCountY
          then (if x0 ∈ Finset.range cellCountX then K else 0) else 0 :=
        Finset.sum_ite_eq' (Finset.range cellCountY) y0 _
    _ ≤ K := by split_ifs <;> omega

theorem double_sum_le_one_point (cellCountX cellCountY : ℕ) (g : ℕ → ℕ → ℕ)
    (x0 y0 : ℕ)
    (hz : ∀ x y, x < cellCountX → y < cellCountY → ¬(x = x0 ∧ y = y0) → g x y = 0) :
    (∑ y in Finset.range cellCountY, ∑ x in Finset.range cellCountX, g x y)
      ≤ g x0 y0 := by
  have hterm : ∀ y ∈ Finset.range cellCountY, ∀ x ∈ Finset.range cellCountX,
      g x y ≤ (if x = x0 ∧ y = y0 then g x0 y0 else 0) := by
    intro y hy x hx
    by_cases h1 : x = x0 ∧ y = y0
    · obtain ⟨h2, h3⟩ := h1
      subst h2
      subst h3
      simp
    · rw [hz x y (Finset.mem_range.mp hx) (Finset.mem_range.mp hy) h1]
      exact Nat.zero_le _
  calc (∑ y in Finset.range cellCountY, ∑ x in Finset.range cellCountX, g x y)
      ≤ ∑ y in Finset.range cellCountY, ∑ x in Finset.range cellCountX,
          (if x = x0 ∧ y = y0 then g x0 y0 else 0) := by
        refine Finset.sum_le_sum ?_
        intro y hy
        exact Finset.sum_le_sum (fun x hx => hterm y hy x hx)
    _ ≤ g x0 y0 := double_sum_ite_le cellCountX cellCountY x0 y0 _

theorem double_sum_le_two_points (cellCountX cellCountY : ℕ) (g : ℕ → ℕ → ℕ)
    (x1 y1 x2 y2 : ℕ)
    (hz : ∀ x y, x < cellCountX → y < cellCountY →
      ¬(x = x1 ∧ y = y1) → ¬(x = x2 ∧ y = y2) → g x y = 0) :
    (∑ y in Finset.range cellCountY, ∑ x in Finset.range cellCountX, g x y)
      ≤ g x1 y1 + g x2 y2 := by
  have hterm : ∀ y ∈ Finset.range cellCountY, ∀ x ∈ Finset.range cellCountX,
      g x y ≤ (if x = x1 ∧ y = y1 then g x1 y1 else 0)
            + (if x = x2 ∧ y = y2 then g x2 y2 else 0) := by
    intro y hy x hx
    by_cases h1 : x = x1 ∧ y = y1
    · rw [if_pos h1]
      obtain ⟨h2, h3⟩ := h1
      subst h2
      subst h3
      exact Nat.le_add_right _ _
    · by_cases h2 : x = x2 ∧ y = y2
      · rw [if_neg h1, if_pos h2]
        obtain ⟨h3, h4⟩ := h2
        subst h3
        subst h4
        omega
      · rw [hz x y (Finset.mem_range.mp hx) (Finset.mem_range.mp hy) h1 h2]
        exact Nat.zero_le _
  calc (∑ y in Finset.range cellCountY, ∑ x in Finset.range cellCountX, g x y)
      ≤ ∑ y in Finset.range cellCountY, ∑ x in Finset.range cellCountX,
          ((if x = x1 ∧ y = y1 then g x1 y1 else 0)
            + (if x = x2 ∧ y = y2 then g x2 y2 else 0)) := by
        refine Finset.sum_le_sum ?_
        intro y hy
        exact Finset.sum_le_sum (fun x hx => hterm y hy x hx)
    _ = (∑ y in Finset.range cellCountY, ∑ x in Finset.range cellCountX,
          (if x = x1 ∧ y = y1 then g x1 y1 else 0))
        + (∑ y in Finset.range cellCountY, ∑ x in Finset.range cellCountX,
          (if x = x2 ∧ y = y2 then g x2 y2 else 0)) := by
        rw [← Finset.sum_add_distrib]
        exact Finset.sum_congr rfl (fun y _ => Finset.sum_add_distrib)
    _ ≤ g x1 y1 + g x2 y2 :=
        add_le_add (double_sum_ite_le cellCountX cellCountY x1 y1 _)
          (double_sum_ite_le cellCountX cellCountY x2 y2 _)

theorem upcount_cellPairs_eq_zero (a b : ℕ) (hab : a ≠ b) (grid : List (List ℕ))
    (cellCountX cellCountY x y : ℕ)
    (hA0 : vcount a (cellAt grid cellCountX x y) = 0)
    (hB0 : vcount b (cellAt grid cellCountX x y) = 0) :
    upcount a b (cellPairs grid cellCountX cellCountY x y) = 0 := by
  have hb := upcount_cellPairs_le a b hab grid cellCountX cellCountY x y
  rw [hA0, hB0] at hb
  simp only [zero_mul, add_zero, zero_add, ite_self] at hb
  omega

/-- C4: for every grid content obtained by inserting each live disk
index into exactly one cell, the candidate list produced by
getPotentialCollisions contains every unordered pair of two distinct
inserted indices at most once: intra-cell pairs once via the
second-index-later rule, cross-cell pairs once via the right, down,
down-right, down-left neighbour stencil. -/
theorem getPotentialCollisions_pair_at_most_once
    (grid : List (List ℕ)) (cellCountX cellCountY : ℕ) (a b xa ya xb yb : ℕ)
    (hab : a ≠ b)
    (ha : locatedAt grid cellCountX cellCountY a xa ya)
    (hb : locatedAt grid cellCountX cellCountY b xb yb) :
    upcount a b (getPotentialCollisions grid cellCountX cellCountY) ≤ 1 := by
  obtain ⟨hxa, hya, hA⟩ := ha
  obtain ⟨hxb, hyb, hB⟩ := hb
  have hsum : upcount a b (getPotentialCollisions grid cellCountX cellCountY)
      = ∑ y in Finset.range cellCountY, ∑ x in Finset.range cellCountX,
          upcount a b (cellPairs grid cellCountX cellCountY x y) := by
    unfold getPotentialCollisions upcount
    rw [countP_flatMap]
    simp only [countP_flatMap]
    rw [list_sum_range]
    exact Finset.sum_congr rfl (fun y _ => list_sum_range _ _)
  rw [hsum]
  by_cases hsame : xa = xb ∧ ya = yb
  · obtain ⟨he1, he2⟩ := hsame
    subst he1
    subst he2
    refine le_trans (double_sum_le_one_point cellCountX cellCountY _ xa ya ?_) ?_
    · intro x y hx hy hne
      exact upcount_cellPairs_eq_zero a b hab grid cellCountX cellCountY x y
        (by rw [hA x hx y hy, if_neg hne]) (by rw [hB x hx y hy, if_neg hne])
    · have hbound := upcount_cellPairs_le a b hab grid cellCountX cellCountY xa ya
      have hAa : vcount a (cellAt grid cellCountX xa ya) = 1 := by
        rw [hA xa hxa ya hya]
        simp
      have hBa : vcount b (cellAt grid cellCountX xa ya) = 1 := by
        rw [hB xa hxa ya hya]
        simp
      rw [hAa, hBa] at hbound
      have h2 : (if xa + 1 < cellCountX then
          1 * vcount b (cellAt grid cellCountX (xa + 1) ya)
          + 1 * vcount a (cellAt grid cellCountX (xa + 1) ya) else 0) = 0 := by
        split_ifs with hg
        · have hne : ¬(xa + 1 = xa ∧ ya = ya) := by omega
          rw [hB (xa + 1) hg ya hya, if_neg hne, hA (xa + 1) hg ya hya, if_neg hne]
        · rfl
      have h3 : (if ya + 1 < cellCountY then
          1 * vcount b (cellAt grid cellCountX xa (ya + 1))
          + 1 * vcount a (cellAt grid cellCountX xa (ya + 1)) else 0) = 0 := by
        split_ifs with hg
        · have hne : ¬(xa = xa ∧ ya + 1 = ya) := by omega
          rw [hB xa hxa (ya + 1) hg, if_neg hne, hA xa hxa (ya + 1) hg, if_neg hne]
        · rfl
      have h4 : (if xa + 1 < cellCountX ∧ ya + 1 < cellCountY then
          1 * vcount b (cellAt grid cellCountX (xa + 1) (ya + 1))
          + 1 * vcount a (cellAt grid cellCountX (xa + 1) (ya + 1)) else 0) = 0 := by
        split_ifs with hg
        · have hne : ¬(xa + 1 = xa ∧ ya + 1 = ya) := by omega
          rw [hB (xa + 1) hg.1 (ya + 1) hg.2, if_neg hne,
            hA (xa + 1) hg.1 (ya + 1) hg.2, if_neg hne]
        · rfl
      have h5 : (if 0 < xa ∧ ya + 1 < cellCountY then
          1 * vcount b (cellAt grid cellCountX (xa - 1) (ya + 1))
          + 1 * vcount a (cellAt grid cellCountX (xa - 1) (ya + 1)) else 0) = 0 := by
        split_ifs with hg
        · have hxr : xa - 1 < cellCountX := by omega
          have hne : ¬(xa - 1 = xa ∧ ya + 1 = ya) := by omega
          rw [hB (xa - 1) hxr (ya + 1) hg.2, if_neg hne,
            hA (xa - 1) hxr (ya + 1) hg.2, if_neg hne]
        · rfl
      rw [h2, h3, h4, h5] at hbound
      omega
  · refine le_trans (double_sum_le_two_points cellCountX cellCountY _ xa ya xb yb ?_) ?_
    · intro x y hx hy hne1 hne2
      exact upcount_cellPairs_eq_zero a b hab grid cellCountX cellCountY x y
        (by rw [hA x hx y hy, if_neg hne1]) (by rw [hB x hx y hy, if_neg hne2])
    · have hAa : vcount a (cellAt grid cellCountX xa ya) = 1 := by
        rw [hA xa hxa ya hya]
        simp
      have hBb : vcount b (cellAt grid cellCountX xb yb) = 1 := by
        rw [hB xb hxb yb hyb]
        simp
      have hBa : vcount b (cellAt grid cellCountX xa ya) = 0 := by
        rw [hB xa hxa ya hya, if_neg hsame]
      have hAb : vcount a (cellAt grid cellCountX xb yb) = 0 := by
        rw [hA xb hxb yb hyb, if_neg (fun hc => hsame ⟨hc.1.symm, hc.2.symm⟩)]
      have hga : upcount a b (cellPairs grid cellCountX cellCountY xa ya)
          ≤ (if xa + 1 < cellCountX ∧ xa + 1 = xb ∧ ya = yb then 1 else 0)
          + (if ya + 1 < cellCountY ∧ xa = xb ∧ ya + 1 = yb then 1 else 0)
          + (if (xa + 1 < cellCountX ∧ ya + 1 < cellCountY)
              ∧ xa + 1 = xb ∧ ya + 1 = yb then 1 else 0)
          + (if (0 < xa ∧ ya + 1 < cellCountY)
              ∧ xa - 1 = xb ∧ ya + 1 = yb then 1 else 0) := by
        have hbound := upcount_cellPairs_le a b hab grid cellCountX cellCountY xa ya
        rw [hAa, hBa] at hbound
        refine le_trans hbound ?_
        have e2 : (if xa + 1 < cellCountX then
            1 * vcount b (cellAt grid cellCountX (xa + 1) ya)
            + 0 * vcount a (cellAt grid cellCountX (xa + 1) ya) else 0)
            ≤ (if xa + 1 < cellCountX ∧ xa + 1 = xb ∧ ya = yb then 1 else 0) := by
          by_cases hg : xa + 1 < cellCountX
          · rw [if_pos hg, hB (xa + 1) hg ya hya]
            by_cases he : xa + 1 = xb ∧ ya = yb
            · rw [if_pos he, if_pos ⟨hg, he⟩]
              simp
            · rw [if_neg he]
              simp
          · rw [if_neg hg, if_neg (fun hc => hg hc.1)]
        have e3 : (if ya + 1 < cellCountY then
            1 * vcount b (cellAt grid cellCountX xa (ya + 1))
            + 0 * vcount a (cellAt grid cellCountX xa (ya + 1)) else 0)
            ≤ (if ya + 1 < cellCountY ∧ xa = xb ∧ ya + 1 = yb then 1 else 0) := by
          by_cases hg : ya + 1 < cellCountY
          · rw [if_pos hg, hB xa hxa (ya + 1) hg]
            by_cases he : xa = xb ∧ ya + 1 = yb
            · rw [if_pos he, if_pos ⟨hg, he⟩]
              simp
            · rw [if_neg he]
              simp
          · rw [if_neg hg, if_neg (fun hc => hg hc.1)]
        have e4 : (if xa + 1 < cellCountX ∧ ya + 1 < cellCountY then
            1 * vcount b (cellAt grid cellCountX (xa + 1) (ya + 1))
            + 0 * vcount a (cellAt grid cellCountX (xa + 1) (ya + 1)) else 0)
            ≤ (if (xa + 1 < cellCountX ∧ ya + 1 < cellCountY)
                ∧ xa + 1 = xb ∧ ya + 1 = yb then 1 else 0) := by
          by_cases hg : xa + 1 < cellCountX ∧ ya + 1 < cellCountY
          · rw [if_pos hg, hB (xa + 1) hg.1 (ya + 1) hg.2]
            by_cases he : xa + 1 = xb ∧ ya + 1 = yb
            · rw [if_pos he, if_pos ⟨hg, he⟩]
              simp
            · rw [if_neg he]
              simp
          · rw [if_neg hg, if_neg (fun hc => hg hc.1)]
        have e5 : (if 0 < xa ∧ ya + 1 < cellCountY then
            1 * vcount b (cellAt grid cellCountX (xa - 1) (ya + 1))
            + 0 * vcount a (cellAt grid cellCountX (xa - 1) (ya + 1)) else 0)
            ≤ (if (0 < xa ∧ ya + 1 < cellCountY)
                ∧ xa - 1 = xb ∧ ya + 1 = yb then 1 else 0) := by
          by_cases hg : 0 < xa ∧ ya + 1 < cellCountY
          · have hxr : xa - 1 < cellCountX := by omega
            rw [if_pos hg, hB (xa - 1) hxr (ya + 1) hg.2]
            by_cases he : xa - 1 = xb ∧ ya + 1 = yb
            · rw [if_pos he, if_pos ⟨hg, he⟩]
              simp
            · rw [if_neg he]
              simp
          · rw [if_neg hg, if_neg (fun hc => hg hc.1)]
        omega
      have hgb : upcount a b (cellPairs grid cellCountX cellCountY xb yb)
          ≤ (if xb + 1 < cellCountX ∧ xb + 1 = xa ∧ yb = ya then 1 else 0)
          + (if yb + 1 < cellCountY ∧ xb = xa ∧ yb + 1 = ya then 1 else 0)
          + (if (xb + 1 < cellCountX ∧ yb + 1 < cellCountY)
              ∧ xb + 1 = xa ∧ yb + 1 = ya then 1 else 0)
          + (if (0 < xb ∧ yb + 1 < cellCountY)
              ∧ xb - 1 = xa ∧ yb + 1 = ya then 1 else 0) := by
        have hbound := upcount_cellPairs_le a b hab grid cellCountX cellCountY xb yb
        rw [hAb, hBb] at hbound
        refine le_trans hbound ?_
        have e2 : (if xb + 1 < cellCountX then
            0 * vcount b (cellAt grid cellCountX (xb + 1) yb)
            + 1 * vcount a (cellAt grid cellCountX (xb + 1) yb) else 0)
            ≤ (if xb + 1 < cellCountX ∧ xb + 1 = xa ∧ yb = ya then 1 else 0) := by
          by_cases hg : xb + 1 < cellCountX
          · rw [if_pos hg, hA (xb + 1) hg yb hyb]
            by_cases he : xb + 1 = xa ∧ yb = ya
            · rw [if_pos he, if_pos ⟨hg, he⟩]
              simp
            · rw [if_neg he]
              simp
          · rw [if_neg hg, if_neg (fun hc => hg hc.1)]
        have e3 : (if yb + 1 < cellCountY then
            0 * vcount b (cellAt grid cellCountX xb (yb + 1))
            + 1 * vcount a (cellAt grid cellCountX xb (yb + 1)) else 0)
            ≤ (if yb + 1 < cellCountY ∧ xb = xa ∧ yb + 1 = ya then 1 else 0) := by
          by_cases hg : yb + 1 < cellCountY
          · rw [if_pos hg, hA xb hxb (yb + 1) hg]
            by_cases he : xb = xa ∧ yb + 1 = ya
            · rw [if_pos he, if_pos ⟨hg, he⟩]
              simp
            · rw [if_neg he]
              simp
          · rw [if_neg hg, if_neg (fun hc => hg hc.1)]
        have e4 : (if xb + 1 < cellCountX ∧ yb + 1 < cellCountY then
            0 * vcount b (cellAt grid cellCountX (xb + 1) (yb + 1))
            + 1 * vcount a (cellAt grid cellCountX (xb + 1) (yb + 1)) else 0)
            ≤ (if (xb + 1 < cellCountX ∧ yb + 1 < cellCountY)
                ∧ xb + 1 = xa ∧ yb + 1 = ya then 1 else 0) := by
          by_cases hg : xb + 1 < cellCountX ∧ yb + 1 < cellCountY
          · rw [if_pos hg, hA (xb + 1) hg.1 (yb + 1) hg.2]
            by_cases he : xb + 1 = xa ∧ yb + 1 = ya
            · rw [if_pos he, if_pos ⟨hg, he⟩]
              simp
            · rw [if_neg he]
              simp
          · rw [if_neg hg, if_neg (fun hc => hg hc.1)]
        have e5 : (if 0 < xb ∧ yb + 1 < cellCountY then
            0 * vcount b (cellAt grid cellCountX (xb - 1) (yb + 1))
            + 1 * vcount a (cellAt grid cellCountX (xb - 1) (yb + 1)) else 0)
            ≤ (if (0 < xb ∧ yb + 1 < cellCountY)
                ∧ xb - 1 = xa ∧ yb + 1 = ya then 1 else 0) := by
          by_cases hg : 0 < xb ∧ yb + 1 < cellCountY
          · have hxr : xb - 1 < cellCountX := by omega
            rw [if_pos hg, hA (xb - 1) hxr (yb + 1) hg.2]
            by_cases he : xb - 1 = xa ∧ yb + 1 = ya
            · rw [if_pos he, if_pos ⟨hg, he⟩]
              simp
            · rw [if_neg he]
              simp
          · rw [if_neg hg, if_neg (fun hc => hg hc.1)]
        omega
      have hexcl : (if xa + 1 < cellCountX ∧ xa + 1 = xb ∧ ya = yb then 1 else 0)
          + (if ya + 1 < cellCountY ∧ xa = xb ∧ ya + 1 = yb then 1 else 0)
          + (if (xa + 1 < cellCountX ∧ ya + 1 < cellCountY)
              ∧ xa + 1 = xb ∧ ya + 1 = yb then 1 else 0)
          + (if (0 < xa ∧ ya + 1 < cellCountY)
              ∧ xa - 1 = xb ∧ ya + 1 = yb then 1 else 0)
          + ((if xb + 1 < cellCountX ∧ xb + 1 = xa ∧ yb = ya then 1 else 0)
          + (if yb + 1 < cellCountY ∧ xb = xa ∧ yb + 1 = ya then 1 else 0)
          + (if (xb + 1 < cellCountX ∧ yb + 1 < cellCountY)
              ∧ xb + 1 = xa ∧ yb + 1 = ya then 1 else 0)
          + (if (0 < xb ∧ yb + 1 < cellCountY)
              ∧ xb - 1 = xa ∧ yb + 1 = ya then 1 else 0)) ≤ 1 := by
        split_ifs <;> omega
      omega

/-- Witness for C4 at a concrete grid: indices 5 and 7 inserted once
each into adjacent cells of a 2 x 1 grid. -/
theorem getPotentialCollisions_pair_at_most_once_witness :
    upcount 5 7 (getPotentialCollisions [[5], [7]] 2 1) ≤ 1 :=
  getPotentialCollisions_pair_at_most_once [[5], [7]] 2 1 5 7 0 0 1 0
    (by decide) (by unfold locatedAt; decide) (by unfold locatedAt; decide)

end CirclePhysics
